import Mathlib
/-!
Shallow embedding of the Cassandra core platform (CassandraNet/core/src/platform)
and proofs about its claims.  Identifiers (`Uuid`) are modelled as `Nat`,
timestamps (`chrono::DateTime<Utc>`) and durations as `Int` seconds, byte
strings as `List Nat` with every element `< 256`.  External library
primitives (HMAC-SHA256, serde_json) are taken as function parameters;
base64url-no-pad is implemented concretely.
-/
set_option linter.unusedVariables false

abbrev Uuid := Nat

/-- PlatformError from core/src/platform/error.rs (closed error taxonomy). -/
inductive PlatformError where
  | NotFound (resource : String)
  | Conflict (resource : String)
  | Unauthorized
  | Forbidden
  | InvalidInput (reason : String)
  | Internal (reason : String)
deriving DecidableEq

/-- Scope from cncommon/src/auth.rs: a closed set of named scopes plus a
free-form Custom variant. -/
inductive Scope where
  | Admin
  | TenantRead
  | TenantWrite
  | ProvisioningManage
  | OrchestrationManage
  | ApiKeyManage
  | AgentExecute
  | WorkflowExecute
  | Custom (value : String)
deriving DecidableEq

/-- Scope::as_str from cncommon/src/auth.rs. -/
def Scope.asStr : Scope → String
  | .Admin => "admin"
  | .TenantRead => "tenant:read"
  | .TenantWrite => "tenant:write"
  | .ProvisioningManage => "provisioning:manage"
  | .OrchestrationManage => "orchestration:manage"
  | .ApiKeyManage => "apikey:manage"
  | .AgentExecute => "agent:execute"
  | .WorkflowExecute => "workflow:execute"
  | .Custom value => value

/-- Scope::from_str from cncommon/src/auth.rs. -/
def Scope.fromStr (value : String) : Scope :=
  if value = "admin" then .Admin
  else if value = "tenant:read" then .TenantRead
  else if value = "tenant:write" then .TenantWrite
  else if value = "provisioning:manage" then .ProvisioningManage
  else if value = "orchestration:manage" then .OrchestrationManage
  else if value = "apikey:manage" then .ApiKeyManage
  else if value = "agent:execute" then .AgentExecute
  else if value = "workflow:execute" then .WorkflowExecute
  else .Custom value

/-! ## base64url (no padding), as used via base64::engine::general_purpose::URL_SAFE_NO_PAD -/
/-- The URL-safe base64 alphabet: index 0..63 to character. -/
def b64char (n : Nat) : Char :=
  (("ABCDEFGHIJKLMNOPQRSTUVWXYZabcdefghijklmnopqrstuvwxyz0123456789-_".toList).getD n 'A')

/-- Inverse alphabet lookup: character to index 0..63, none for foreign chars. -/
def b64index (c : Char) : Option Nat :=
  (("ABCDEFGHIJKLMNOPQRSTUVWXYZabcdefghijklmnopqrstuvwxyz0123456789-_".toList).findIdx?
    (fun d => d = c))

/-- base64url-no-pad encoding of a byte list (bytes are Nat < 256). -/
def b64encode : List Nat → List Char
  | b0 :: b1 :: b2 :: rest =>
      b64char (b0 / 4) :: b64char ((b0 % 4) * 16 + b1 / 16) ::
      b64char ((b1 % 16) * 4 + b2 / 64) :: b64char (b2 % 64) :: b64encode rest
  | [b0, b1] =>
      [b64char (b0 / 4), b64char ((b0 % 4) * 16 + b1 / 16), b64char ((b1 % 16) * 4)]
  | [b0] => [b64char (b0 / 4), b64char ((b0 % 4) * 16)]
  | [] => []

/-- Regroup decoded sextets into bytes; canonical (zero) trailing bits required,
as in the base64 crate's default strict decode. -/
def b64regroup : List Nat → Option (List Nat)
  | s0 :: s1 :: s2 :: s3 :: rest =>
      (b64regroup rest).map (fun tail =>
        (s0 * 4 + s1 / 16) :: ((s1 % 16) * 16 + s2 / 4) :: ((s2 % 4) * 64 + s3) :: tail)
  | [s0, s1, s2] =>
      if s2 % 4 = 0 then some [s0 * 4 + s1 / 16, (s1 % 16) * 16 + s2 / 4] else none
  | [s0, s1] => if s1 % 16 = 0 then some [s0 * 4 + s1 / 16] else none
  | [s0] => none
  | [] => some []

/-- base64url-no-pad decoding. -/
def b64decode (cs : List Char) : Option (List Nat) :=
  match cs.mapM b64index with
  | none => none
  | some sextets => b64regroup sextets

/-- Sextet stream produced by `b64encode` (proof helper mirror). -/
def b64sextets : List Nat → List Nat
  | b0 :: b1 :: b2 :: rest =>
      (b0 / 4) :: ((b0 % 4) * 16 + b1 / 16) :: ((b1 % 16) * 4 + b2 / 64) :: (b2 % 64)
        :: b64sextets rest
  | [b0, b1] => [b0 / 4, (b0 % 4) * 16 + b1 / 16, (b1 % 16) * 4]
  | [b0] => [b0 / 4, (b0 % 4) * 16]
  | [] => []

/-! ## Splitting a token on dots (str::split('.')) -/
def splitDots : List Char → List (List Char)
  | [] => [[]]
  | c :: rest =>
      if c = '.' then [] :: splitDots rest
      else
        match splitDots rest with
        | [] => [[c]]
        | p :: ps => (c :: p) :: ps

/-! ## Auth data model (core/src/platform/models.rs) -/
inductive PrincipalType where
  | Tenant
  | Agent
  | Service
  | ServiceAccount
deriving DecidableEq

/-- The string produced by Rust `format!("{:?}", principal_type)`. -/
def prnTypeStr : PrincipalType → String
  | .Tenant => "Tenant"
  | .Agent => "Agent"
  | .Service => "Service"
  | .ServiceAccount => "ServiceAccount"

/-- The match in `impl From<TokenClaims> for AuthContext` (auth.rs): unknown
tags collapse to Service. -/
def prnTypeOfStr (s : String) : PrincipalType :=
  if s = "Tenant" then .Tenant
  else if s = "Agent" then .Agent
  else if s = "ServiceAccount" then .ServiceAccount
  else .Service

structure AuthSessionMetadata where
  user_agent : Option String := none
  ip_address : Option String := none
  device_id : Option String := none
deriving DecidableEq

/-- TenantSettings (models.rs); `default_storage` is omitted: no claim touches it. -/
structure TenantSettings where
  allowed_origins : List String := []
  token_ttl_seconds : Option Int := none
  refresh_token_ttl_seconds : Option Int := none
deriving DecidableEq

structure Tenant where
  id : Uuid
  name : String
  created_at : Int
  settings : TenantSettings
deriving DecidableEq

structure AuthContext where
  principal_id : Uuid
  principal_type : PrincipalType
  tenant_id : Uuid
  scopes : List Scope
  issued_at : Int
  expires_at : Int
  audience : Option String
  issuer : Option String
  session : Option AuthSessionMetadata
deriving DecidableEq

inductive TokenUse where
  | Access
  | Refresh
deriving DecidableEq

/-- TokenClaims (auth.rs).  On the wire `sub`/`tenant_id` are the uuid's
string rendering; `Uuid::parse_str ∘ Uuid::to_string = id` per the uuid
crate, so they are kept as `Uuid` here. -/
structure TokenClaims where
  sub : Uuid
  tenant_id : Uuid
  scopes : List String
  prn_type : String
  aud : Option String
  iss : String
  token_use : TokenUse
  nonce : String
  session : Option AuthSessionMetadata
  iat : Int
  exp : Int
deriving DecidableEq

/-- TokenClaims::from_context (auth.rs). -/
def TokenClaims.from_context (ctx : AuthContext) (token_use : TokenUse) (nonce : String) :
    TokenClaims :=
  { sub := ctx.principal_id
    tenant_id := ctx.tenant_id
    scopes := ctx.scopes.map Scope.asStr
    prn_type := prnTypeStr ctx.principal_type
    aud := ctx.audience
    iss := ctx.issuer.getD "cassantranet"
    token_use := token_use
    nonce := nonce
    session := ctx.session
    iat := ctx.issued_at
    exp := ctx.expires_at }

/-- impl From<TokenClaims> for AuthContext (auth.rs). -/
def authContextOfClaims (claims : TokenClaims) : AuthContext :=
  { principal_id := claims.sub
    principal_type := prnTypeOfStr claims.prn_type
    tenant_id := claims.tenant_id
    scopes := claims.scopes.map Scope.fromStr
    issued_at := claims.iat
    expires_at := claims.exp
    audience := claims.aud
    issuer := some claims.iss
    session := claims.session }

/-! ## JWT signing and verification (auth.rs sign_jwt / verify_jwt).
HMAC-SHA256 is the external `hmac` crate: it is passed in as a function
`mac : secret → signing input → tag bytes`; serde_json claim (de)serialization
is passed in as `jsonEnc` / `jsonDec`. -/
/-- The bytes of the literal header written by sign_jwt. -/
def hs256HeaderBytes : List Nat :=
  "\x7b\"alg\":\"HS256\",\"typ\":\"JWT\"\x7d".toList.map Char.toNat

/-- header_bytes.windows(5).any(|w| w == b"HS256") from verify_jwt. -/
def containsHS256 : List Nat → Bool
  | b0 :: b1 :: b2 :: b3 :: b4 :: rest =>
      (decide ([b0, b1, b2, b3, b4] = [72, 83, 50, 53, 54])) ||
        containsHS256 (b1 :: b2 :: b3 :: b4 :: rest)
  | _ => false

def sign_jwt (mac : List Nat → List Char → List Nat) (jsonEnc : TokenClaims → List Nat)
    (secret : List Nat) (claims : TokenClaims) : List Char :=
  let header := b64encode hs256HeaderBytes
  let payload := b64encode (jsonEnc claims)
  let signingInput := header ++ '.' :: payload
  signingInput ++ '.' :: b64encode (mac secret signingInput)

def verify_jwt (mac : List Nat → List Char → List Nat)
    (jsonDec : List Nat → Option TokenClaims) (secret : List Nat) (token : List Char) :
    Except PlatformError TokenClaims :=
  match splitDots token with
  | [header, payload, signature] =>
    match b64decode header with
    | none => .error .Unauthorized
    | some header_bytes =>
      if !containsHS256 header_bytes then .error .Unauthorized
      else
        let signingInput := header ++ '.' :: payload
        let expected := mac secret signingInput
        match b64decode signature with
        | none => .error .Unauthorized
        | some provided =>
          if provided ≠ expected then .error .Unauthorized
          else
            match b64decode payload with
            | none => .error .Unauthorized
            | some claims_bytes =>
              match jsonDec claims_bytes with
              | none => .error .Unauthorized
              | some claims => .ok claims
  | _ => .error .Unauthorized

/-! ## AuthService (auth.rs) -/
/-- The immutable configuration of AuthService, with the defaults installed by
`AuthService::new` (60 min access ttl, 12 h refresh ttl, issuer "cassantranet",
no default audience). -/
structure AuthServiceCfg where
  secret : List Nat
  default_ttl : Int := 3600
  default_refresh_ttl : Int := 43200
  issuer : String := "cassantranet"
  default_audience : Option String := none

def get_tenant (tenants : List Tenant) (id : Uuid) : Option Tenant :=
  tenants.find? (fun t => t.id = id)

/-- AuthService::resolve_access_ttl. -/
def resolve_access_ttl (cfg : AuthServiceCfg) (tenants : List Tenant) (tenant_id : Uuid)
    (override_ttl : Option Int) : Int :=
  match override_ttl with
  | some ttl => ttl
  | none =>
    match get_tenant tenants tenant_id with
    | some tenant =>
      match tenant.settings.token_ttl_seconds with
      | some seconds => if seconds > 0 then seconds else cfg.default_ttl
      | none => cfg.default_ttl
    | none => cfg.default_ttl

/-- AuthService::resolve_refresh_ttl. -/
def resolve_refresh_ttl (cfg : AuthServiceCfg) (tenants : List Tenant) (tenant_id : Uuid) : Int :=
  match get_tenant tenants tenant_id with
  | some tenant =>
    match tenant.settings.refresh_token_ttl_seconds with
    | some seconds => if seconds > 0 then seconds else 0
    | none => cfg.default_refresh_ttl
  | none => cfg.default_refresh_ttl

/-- AuthService::ensure_claims_valid. -/
def ensure_claims_valid (cfg : AuthServiceCfg) (claims : TokenClaims)
    (expected_use : TokenUse) (now : Int) : Except PlatformError Unit :=
  if claims.token_use ≠ expected_use then .error .Unauthorized
  else if claims.exp < now then .error .Unauthorized
  else if claims.iss ≠ cfg.issuer then .error .Unauthorized
  else
    match cfg.default_audience with
    | some expected => if claims.aud ≠ some expected then .error .Unauthorized else .ok ()
    | none => .ok ()

structure AuthToken where
  token : List Char
  context : AuthContext
  refresh_token : Option (List Char)

/-- The context as updated inside issue_token_from_context before signing:
fresh issued_at/expires_at, audience defaulted, issuer pinned. -/
def issuedContext (cfg : AuthServiceCfg) (tenants : List Tenant) (ctx : AuthContext)
    (ttl : Option Int) (now : Int) : AuthContext :=
  { ctx with
    issued_at := now
    expires_at := now + resolve_access_ttl cfg tenants ctx.tenant_id ttl
    audience := match ctx.audience with
      | none => cfg.default_audience
      | some a => some a
    issuer := some cfg.issuer }

/-- AuthService::issue_refresh_token. -/
def issue_refresh_token (cfg : AuthServiceCfg) (tenants : List Tenant)
    (mac : List Nat → List Char → List Nat) (jsonEnc : TokenClaims → List Nat)
    (context : AuthContext) (nonce : String) : Option (List Char) :=
  let refresh_ttl := resolve_refresh_ttl cfg tenants context.tenant_id
  if refresh_ttl ≤ 0 then none
  else
    let refresh_context := { context with expires_at := context.issued_at + refresh_ttl }
    some (sign_jwt mac jsonEnc cfg.secret (TokenClaims.from_context refresh_context .Refresh nonce))

/-- AuthService::issue_token_from_context.  `now` models Utc::now(), the two
nonces model the fresh `Uuid::new_v4().to_string()` values. -/
def issue_token_from_context (cfg : AuthServiceCfg) (tenants : List Tenant)
    (mac : List Nat → List Char → List Nat) (jsonEnc : TokenClaims → List Nat)
    (ctx : AuthContext) (ttl : Option Int) (now : Int) (nonce nonceRefresh : String) :
    AuthToken :=
  let context := issuedContext cfg tenants ctx ttl now
  let claims := TokenClaims.from_context context .Access nonce
  { token := sign_jwt mac jsonEnc cfg.secret claims
    context := context
    refresh_token := issue_refresh_token cfg tenants mac jsonEnc context nonceRefresh }

/-- AuthService::validate_token. -/
def validate_token (cfg : AuthServiceCfg) (mac : List Nat → List Char → List Nat)
    (jsonDec : List Nat → Option TokenClaims) (token : List Char) (now : Int) :
    Except PlatformError AuthContext :=
  match verify_jwt mac jsonDec cfg.secret token with
  | .error e => .error e
  | .ok claims =>
    match ensure_claims_valid cfg claims .Access now with
    | .error e => .error e
    | .ok _ => .ok (authContextOfClaims claims)

/-! ## API keys (auth.rs + persistence.rs in-memory ApiKeyStore) -/
/-- ApiKeyRecord (models.rs); `token_pfx` is the source's token_prefix field
(renamed: the original spelling is reserved here). -/
structure ApiKeyRecord where
  id : Uuid
  tenant_id : Uuid
  label : String
  scopes : List Scope
  token_pfx : String
  token_hash : String
  created_at : Int
  last_used_at : Option Int
  revoked : Bool
  deleted_at : Option Int
  rotated_from : Option Uuid
  rotated_to : Option Uuid
deriving DecidableEq

structure ApiKey where
  id : Uuid
  value : String
  tenant_id : Uuid
  label : String
  scopes : List Scope
  created_at : Int
  rotation_parent : Option Uuid
deriving DecidableEq

/-- InMemoryPersistence.insert_api_key: Conflict when the prefix is taken. -/
def insert_api_key (store : List ApiKeyRecord) (record : ApiKeyRecord) :
    Except PlatformError (List ApiKeyRecord) :=
  if store.any (fun r => r.token_pfx = record.token_pfx) then .error (.Conflict "api_key")
  else .ok (record :: store)

def get_api_key (store : List ApiKeyRecord) (id : Uuid) : Option ApiKeyRecord :=
  store.find? (fun r => r.id = id)

def update_api_key (store : List ApiKeyRecord) (record : ApiKeyRecord) :
    Except PlatformError (List ApiKeyRecord) :=
  if store.any (fun r => r.id = record.id) then
    .ok (store.map (fun r => if r.id = record.id then record else r))
  else .error (.NotFound "api_key")

/-- Rust str::trim (kernel-reducible model over the character list). -/
def strTrim (s : String) : String :=
  ⟨((s.data.dropWhile Char.isWhitespace).reverse.dropWhile Char.isWhitespace).reverse⟩

/-- Rust string slicing [..n] (kernel-reducible model over the char list). -/
def strTake (s : String) (n : Nat) : String :=
  ⟨s.data.take n⟩

/-- First 8 characters of the uuid's string form (create_api_key). -/
def uuidPrefix8 (id : Uuid) : String :=
  strTake (toString id) 8

/-- AuthService::create_api_key.  The OsRng secret and the fresh Uuid are the
parameters `secret_b64` / `freshId`; SHA-256 ∘ base64 (hash_secret) is the
parameter `hash`. -/
def create_api_key (store : List ApiKeyRecord) (hash : String → String) (tenant_id : Uuid)
    (label : String) (scopes : List Scope) (rotation_parent : Option Uuid) (freshId : Uuid)
    (secret_b64 : String) (now : Int) : Except PlatformError (ApiKey × List ApiKeyRecord) :=
  let token_pfx := uuidPrefix8 freshId
  let token_hash := hash secret_b64
  let record : ApiKeyRecord :=
    { id := freshId, tenant_id := tenant_id, label := label, scopes := scopes,
      token_pfx := token_pfx, token_hash := token_hash, created_at := now,
      last_used_at := none, revoked := false, deleted_at := none,
      rotated_from := rotation_parent, rotated_to := none }
  match insert_api_key store record with
  | .error e => .error e
  | .ok store' =>
    .ok ({ id := freshId, value := token_pfx ++ "." ++ secret_b64, tenant_id := tenant_id,
           label := label, scopes := scopes, created_at := now,
           rotation_parent := rotation_parent }, store')

/-- AuthService::validate_scopes. -/
def validate_scopes (scopes : List Scope) : Except PlatformError Unit :=
  if scopes.isEmpty then .error (.InvalidInput "scopes required")
  else if scopes.Nodup then .ok ()
  else .error (.InvalidInput "duplicate scopes")

/-- AuthService::issue_api_key. -/
def issue_api_key (store : List ApiKeyRecord) (hash : String → String) (tenant_id : Uuid)
    (label : String) (scopes : List Scope) (freshId : Uuid) (secret_b64 : String) (now : Int) :
    Except PlatformError (ApiKey × List ApiKeyRecord) :=
  match validate_scopes scopes with
  | .error e => .error e
  | .ok _ => create_api_key store hash tenant_id label scopes none freshId secret_b64 now

/-- AuthService::rotate_api_key.  Returns the call's result together with the
store it leaves behind (error paths leave the store is). -/
def rotate_api_key (store : List ApiKeyRecord) (hash : String → String) (id : Uuid)
    (freshId : Uuid) (secret_b64 : String) (now : Int) :
    Except PlatformError ApiKey × List ApiKeyRecord :=
  match get_api_key store id with
  | none => (.error (.NotFound "api_key"), store)
  | some existing =>
    if existing.revoked || existing.deleted_at.isSome then
      (.error (.InvalidInput "api key inactive"), store)
    else
      match create_api_key store hash existing.tenant_id existing.label existing.scopes
          (some existing.id) freshId secret_b64 now with
      | .error e => (.error e, store)
      | .ok (new_key, store') =>
        let existing' := { existing with
          revoked := true, deleted_at := some now, rotated_to := some new_key.id }
        match update_api_key store' existing' with
        | .error e => (.error e, store')
        | .ok store'' => (.ok new_key, store'')

/-! ## Claim C2 -/
/-- Concrete already-revoked api key record used for claim C2. -/
def c2record : ApiKeyRecord :=
  { id := 1, tenant_id := 2, label := "primary", scopes := [.Admin], token_pfx := "deadbeef",
    token_hash := "h", created_at := 0, last_used_at := none, revoked := true,
    deleted_at := none, rotated_from := none, rotated_to := none }

def c2store : List ApiKeyRecord := [c2record]

/-- Is a rotate result a Conflict error (the kind the spec's taxonomy assigns)? -/
def rotateIsConflict : Except PlatformError ApiKey → Bool
  | .error (.Conflict _) => true
  | _ => false

/-- Header bytes of a forged token declaring alg "none" while containing the
substring "HS256" in another field. -/
def c3evilHeader : List Nat :=
  "\x7b\"alg\":\"none\",\"kid\":\"HS256\"\x7d".toList.map Char.toNat

def c3mac : List Nat → List Char → List Nat := fun _ _ => [0]

def c3claims : TokenClaims :=
  { sub := 0, tenant_id := 0, scopes := [], prn_type := "Service", aud := none,
    iss := "cassantranet", token_use := .Access, nonce := "n", session := none,
    iat := 0, exp := 0 }

def c3jsonDec : List Nat → Option TokenClaims := fun _ => some c3claims

/-- The forged token: evil header, payload byte [1], and a mac valid for the
signing input. -/
def c3token : List Char :=
  (b64encode c3evilHeader ++ '.' :: b64encode [1])
    ++ '.' :: b64encode (c3mac [] (b64encode c3evilHeader ++ '.' :: b64encode [1]))

/-! ## Claim C6 -/
/-- The access-token claims built inside issue_token_from_context. -/
def issuedAccessClaims (cfg : AuthServiceCfg) (tenants : List Tenant) (ctx : AuthContext)
    (ttl : Option Int) (now : Int) (nonce : String) : TokenClaims :=
  TokenClaims.from_context (issuedContext cfg tenants ctx ttl now) .Access nonce

def c6wCfg : AuthServiceCfg := { secret := [] }

def c6wCtx : AuthContext :=
  { principal_id := 7, principal_type := .Tenant, tenant_id := 9, scopes := [.Admin],
    issued_at := 0, expires_at := 0, audience := none, issuer := some "cassantranet",
    session := none }

def c6wClaims : TokenClaims := issuedAccessClaims c6wCfg [] c6wCtx (some 60) 0 "n"

def c6wEnc : TokenClaims → List Nat := fun _ => []

def c6wDec : List Nat → Option TokenClaims := fun _ => some c6wClaims

def c6wMac : List Nat → List Char → List Nat := fun _ _ => [0]

/-- The tenant store holding the tenant of the C6 counterexample context. -/
def c6xTenants : List Tenant :=
  [{ id := 9, name := "T", created_at := 0, settings := {} }]

/-- A context whose scope list does not survive the string round trip:
Custom "admin" is re-parsed as the named Admin scope. -/
def c6xCtx : AuthContext :=
  { principal_id := 7, principal_type := .Tenant, tenant_id := 9,
    scopes := [Scope.Custom "admin"], issued_at := 0, expires_at := 0, audience := none,
    issuer := some "cassantranet", session := none }

def c6xClaims : TokenClaims := issuedAccessClaims c6wCfg c6xTenants c6xCtx (some 60) 0 "n"

def c6xDec : List Nat → Option TokenClaims := fun _ => some c6xClaims

/-- Header bytes with no "HS256" substring at all. -/
def c3plainHeader : List Nat :=
  "\x7b\"alg\":\"none\"\x7d".toList.map Char.toNat

def c3wtoken : List Char :=
  (b64encode c3plainHeader ++ '.' :: b64encode [1]) ++ '.' :: b64encode [0]

namespace Orch

/-! ## Orchestration data model (models.rs / orchestration.rs).
Everything lives in namespace Orch (`Task` would clash with the prelude). -/
inductive TaskStatus where
  | Pending
  | InProgress
  | Completed
  | Failed
deriving DecidableEq

/-- serde_json::Value as far as the engine inspects it: either an opaque
value or the workflow step payload object {workflow_id, workflow_run_id,
step_id, input} built by schedule_workflow / handle_task_outcome. -/
inductive Payload where
  | value (tag : Nat)
  | step (workflow_id run_id step_id : Uuid) (input : Payload)
deriving DecidableEq

structure TaskTimeouts where
  lease_seconds : Option Nat := none
  execution_seconds : Option Nat := none
  retry_backoff_seconds : Option Nat := none
deriving DecidableEq

structure Task where
  id : Uuid
  tenant_id : Uuid
  kind : String
  payload : Payload
  status : TaskStatus
  attempts : Nat
  scheduled_at : Int
  started_at : Option Int
  completed_at : Option Int
  last_error : Option String
  result : Option Payload
  timeouts : Option TaskTimeouts
deriving DecidableEq

structure TaskRequest where
  tenant_id : Uuid
  kind : String
  payload : Payload
deriving DecidableEq

/-- TaskPolicy with its Default impl values (orchestration.rs). -/
structure TaskPolicy where
  timeouts : Option TaskTimeouts := none
  max_retries : Nat := 3
  backoff_seconds : Option Nat := some 30
  priority : Nat := 100
deriving DecidableEq

inductive SchedulerStrategy where
  | Fifo
  | Priority
  | FairnessByKind
deriving DecidableEq

structure TaskLease where
  task : Task
  worker_id : Uuid
  leased_at : Int
  lease_expires_at : Int
  lease_version : Nat
  lease_token : Uuid
deriving DecidableEq

structure LeaseState where
  version : Nat
  token : Uuid
  worker_id : Uuid
  leased_at : Int
  lease_expires_at : Int
deriving DecidableEq

structure TaskDependency where
  task_kind : String
  required_status : TaskStatus
deriving DecidableEq

structure WorkflowStep where
  id : Uuid
  name : String
  task_kind : String
  dependencies : List TaskDependency
deriving DecidableEq

structure Workflow where
  id : Uuid
  tenant_id : Uuid
  name : String
  steps : List WorkflowStep
  created_at : Int
deriving DecidableEq

inductive WorkflowRunStatus where
  | Pending
  | Running
  | Completed
  | Failed
  | Cancelled
deriving DecidableEq

structure WorkflowRun where
  id : Uuid
  tenant_id : Uuid
  workflow_id : Uuid
  status : WorkflowRunStatus
  current_step : Option Uuid
  created_at : Int
  updated_at : Int
  started_at : Option Int
  completed_at : Option Int
  context : Payload
deriving DecidableEq

structure WorkflowRunState where
  run : WorkflowRun
  step_lookup : List (Uuid × WorkflowStep)
  waiting_steps : List Uuid
  inflight_steps : List Uuid
  completed_kinds : List String
  failed_kinds : List String
deriving DecidableEq

structure WorkflowContext where
  workflow_id : Uuid
  run_id : Uuid
  step_id : Uuid
deriving DecidableEq

/-! Association-list helpers standing in for HashMap; HashSet fields are
lists managed with set-style insert/remove. -/
def lookup {α : Type} (m : List (Uuid × α)) (key : Uuid) : Option α :=
  (m.find? (fun p => p.1 = key)).map (fun p => p.2)

def lookupStr {α : Type} (m : List (String × α)) (key : String) : Option α :=
  (m.find? (fun p => p.1 = key)).map (fun p => p.2)

def eraseKey {α : Type} (m : List (Uuid × α)) (key : Uuid) : List (Uuid × α) :=
  m.filter (fun p => p.1 ≠ key)

def mapInsert {α : Type} (m : List (Uuid × α)) (key : Uuid) (val : α) : List (Uuid × α) :=
  (key, val) :: eraseKey m key

def setInsert {α : Type} [DecidableEq α] (l : List α) (a : α) : List α :=
  if a ∈ l then l else a :: l

def setRemove {α : Type} [DecidableEq α] (l : List α) (a : α) : List α :=
  l.filter (fun x => x ≠ a)

/-! ## Task store (persistence.rs in-memory TaskStore) -/
def get_task (tasks : List Task) (id : Uuid) : Option Task :=
  tasks.find? (fun t => t.id = id)

def enqueue_task (tasks : List Task) (task : Task) : Except PlatformError (List Task) :=
  if tasks.any (fun t => t.id = task.id) then .error (.Conflict "task")
  else .ok (tasks ++ [task])

def update_task (tasks : List Task) (task : Task) : Except PlatformError (List Task) :=
  if tasks.any (fun t => t.id = task.id) then
    .ok (tasks.map (fun t => if t.id = task.id then task else t))
  else .error (.NotFound "task")

def schedLE (a b : Task) : Prop := a.scheduled_at ≤ b.scheduled_at

instance : DecidableRel schedLE :=
  fun a b => inferInstanceAs (Decidable (a.scheduled_at ≤ b.scheduled_at))

instance : IsTotal Task schedLE := ⟨fun a b => Int.le_total a.scheduled_at b.scheduled_at⟩

instance : IsTrans Task schedLE := ⟨fun a b c => Int.le_trans⟩

/-- list_pending_tasks: pending tasks of the tenant in scheduled_at order. -/
def list_pending_tasks (tasks : List Task) (tenant_id : Uuid) : List Task :=
  (tasks.filter (fun t => t.tenant_id = tenant_id ∧ t.status = .Pending)).insertionSort schedLE

/-! ## OrchestrationEngine state and helpers -/
/-- The engine's mutable state.  `nextId` is the counter standing in for
`Uuid::new_v4` when the engine itself creates task ids. -/
structure EngineState where
  tasks : List Task
  workflows : List Workflow
  scheduler : SchedulerStrategy
  task_policies : List (String × TaskPolicy)
  workflow_runs : List (Uuid × WorkflowRunState)
  lease_states : List (Uuid × LeaseState)
  last_kind : Option String
  nextId : Nat
deriving DecidableEq

/-- Per-kind policy with the Default fallback (schedule_task / fail_task). -/
def policyFor (policies : List (String × TaskPolicy)) (kind : String) : TaskPolicy :=
  (lookupStr policies kind).getD {}

/-- Rust Iterator::min_by: first minimal element under the comparator. -/
def rustMinBy (cmp : Task → Task → Ordering) (l : List Task) : Option Task :=
  l.foldl (fun acc x =>
    match acc with
    | none => some x
    | some a => if cmp x a = .lt then some x else acc) none

/-- The FairnessByKind selection loop of select_task. -/
def fairLoop (last : Option String) : Option Task → List Task → Option Task
  | fallback, [] => fallback
  | fallback, t :: rest =>
      let fb := if fallback.isNone then some t else fallback
      if some t.kind ≠ last then some t else fairLoop last fb rest

/-- OrchestrationEngine::select_task; returns the candidate and the updated
last-kind cursor. -/
def select_task (strategy : SchedulerStrategy) (policies : List (String × TaskPolicy))
    (last_kind : Option String) (pending : List Task) : Option Task × Option String :=
  if pending.isEmpty then (none, last_kind)
  else
    let candidate :=
      match strategy with
      | .Fifo => rustMinBy (fun a b => compare a.scheduled_at b.scheduled_at) pending
      | .Priority => rustMinBy (fun a b =>
          let ap := ((lookupStr policies a.kind).map (fun (p : TaskPolicy) => p.priority)).getD 100
          let bp := ((lookupStr policies b.kind).map (fun (p : TaskPolicy) => p.priority)).getD 100
          (compare ap bp).then (compare a.scheduled_at b.scheduled_at)) pending
      | .FairnessByKind => fairLoop last_kind none (pending.insertionSort schedLE)
    match candidate with
    | some task =>
        (some task,
          if strategy = SchedulerStrategy.FairnessByKind then some task.kind else last_kind)
    | none => (none, last_kind)

/-- OrchestrationEngine::start_lease. -/
def start_lease (leases : List (Uuid × LeaseState)) (task : Task) (worker_id : Uuid)
    (lease_ttl : Int) (now : Int) (freshToken : Uuid) :
    TaskLease × List (Uuid × LeaseState) :=
  let lease_window : Int :=
    match task.timeouts with
    | some timeouts =>
      match timeouts.lease_seconds with
      | some secs => (secs : Int)
      | none => lease_ttl
    | none => lease_ttl
  let expires_at := now + lease_window
  let version :=
    match lookup leases task.id with
    | some state => state.version + 1
    | none => 1
  let lease_state : LeaseState :=
    { version := version, token := freshToken, worker_id := worker_id, leased_at := now,
      lease_expires_at := expires_at }
  (⟨task, worker_id, now, expires_at, version, freshToken⟩,
    mapInsert leases task.id lease_state)

/-- OrchestrationEngine::clear_lease. -/
def clear_lease (leases : List (Uuid × LeaseState)) (task_id : Uuid) :
    List (Uuid × LeaseState) :=
  eraseKey leases task_id

/-- OrchestrationEngine::workflow_context: the payload fields read back by
handle_task_outcome. -/
def workflow_context (task : Task) : Option WorkflowContext :=
  match task.payload with
  | .step workflow_id run_id step_id _ => some ⟨workflow_id, run_id, step_id⟩
  | .value _ => none

/-! ## WorkflowRunState methods -/
/-- WorkflowRunState::new. -/
def WorkflowRunState.new (run : WorkflowRun) (steps : List WorkflowStep) :
    WorkflowRunState :=
  { run := run
    step_lookup := steps.map (fun step => (step.id, step))
    waiting_steps := steps.map (fun step => step.id)
    inflight_steps := []
    completed_kinds := []
    failed_kinds := [] }

def depSatisfied (st : WorkflowRunState) (dep : TaskDependency) : Bool :=
  match dep.required_status with
  | .Completed => st.completed_kinds.contains dep.task_kind
  | .Failed => st.failed_kinds.contains dep.task_kind
  | .Pending => true
  | .InProgress => true

/-- WorkflowRunState::pop_ready_steps. -/
def pop_ready_steps (st : WorkflowRunState) : List WorkflowStep × WorkflowRunState :=
  let ready_ids := st.waiting_steps.filter (fun id =>
    match lookup st.step_lookup id with
    | some step => step.dependencies.all (depSatisfied st)
    | none => false)
  let st' := { st with
    waiting_steps := st.waiting_steps.filter (fun id => ¬ ready_ids.contains id)
    inflight_steps := ready_ids.foldl setInsert st.inflight_steps }
  (ready_ids.filterMap (lookup st.step_lookup), st')

/-- mark_step_outcome, part 1: record the step's kind in the outcome set. -/
def markKinds (st : WorkflowRunState) (step_id : Uuid) (success : Bool) : WorkflowRunState :=
  match lookup st.step_lookup step_id with
  | some step =>
    if success then { st with completed_kinds := setInsert st.completed_kinds step.task_kind }
    else { st with failed_kinds := setInsert st.failed_kinds step.task_kind }
  | none => st

/-- mark_step_outcome, part 2: drop the step from inflight and stamp the run. -/
def markProgress (st : WorkflowRunState) (step_id : Uuid) (now : Int) : WorkflowRunState :=
  { st with
      inflight_steps := setRemove st.inflight_steps step_id
      run := { st.run with current_step := some step_id, updated_at := now } }

/-- mark_step_outcome, part 3: when waiting and inflight are both empty, stamp
completed_at and the terminal status. -/
def finalizeRun (st : WorkflowRunState) (now : Int) : WorkflowRunState :=
  if st.waiting_steps.isEmpty && st.inflight_steps.isEmpty then
    { st with run := { st.run with
        completed_at := some now
        status := if st.failed_kinds.isEmpty then .Completed else .Failed } }
  else st

/-- WorkflowRunState::mark_step_outcome. -/
def mark_step_outcome (st : WorkflowRunState) (step_id : Uuid) (success : Bool)
    (now : Int) : WorkflowRunState :=
  finalizeRun (markProgress (markKinds st step_id success) step_id now) now

/-! ## OrchestrationEngine operations -/
/-- The Pending task record created by schedule_task (id is the fresh uuid,
timeouts copied from the registered per-kind policy). -/
def newTask (s : EngineState) (request : TaskRequest) (now : Int) : Task :=
  { id := s.nextId, tenant_id := request.tenant_id, kind := request.kind,
    payload := request.payload, status := .Pending, attempts := 0, scheduled_at := now,
    started_at := none, completed_at := none, last_error := none, result := none,
    timeouts := (policyFor s.task_policies request.kind).timeouts }

/-- OrchestrationEngine::schedule_task. -/
def schedule_task (s : EngineState) (request : TaskRequest) (now : Int) :
    Except PlatformError (Task × EngineState) :=
  match enqueue_task s.tasks (newTask s request now) with
  | .error e => .error e
  | .ok tasks' =>
    .ok (newTask s request now, { s with tasks := tasks', nextId := s.nextId + 1 })

/-- The step fan-out loop shared by schedule_workflow / handle_task_outcome:
schedule one task per ready step with the workflow payload shape. -/
def scheduleReadySteps (run : WorkflowRun) (input : Payload) (now : Int) :
    EngineState → List WorkflowStep → Except PlatformError (List Task × EngineState)
  | s, [] => .ok ([], s)
  | s, step :: rest =>
    match schedule_task s
      { tenant_id := run.tenant_id, kind := step.task_kind,
        payload := .step run.workflow_id run.id step.id input } now with
    | .error e => .error e
    | .ok (task, s') =>
      match scheduleReadySteps run input now s' rest with
      | .error e => .error e
      | .ok (tasks, s'') => .ok (task :: tasks, s'')

/-- The `matches!` test deciding whether the run is finished. -/
def runFinished : WorkflowRunStatus → Bool
  | .Completed => true
  | .Failed => true
  | .Cancelled => true
  | .Pending => false
  | .Running => false

/-- The tail of handle_task_outcome once the run state has been marked and the
ready steps popped (`p` is the pop_ready_steps result): store the updated run
state, schedule the ready steps, and drop the run when finished. -/
def handleOutcomeCore (s : EngineState) (ctx : WorkflowContext)
    (p : List WorkflowStep × WorkflowRunState) (now : Int) :
    Except PlatformError EngineState :=
  match scheduleReadySteps p.2.run p.2.run.context now
      { s with workflow_runs := mapInsert s.workflow_runs ctx.run_id p.2 } p.1 with
  | .error e => .error e
  | .ok (_, s2) =>
    .ok (if runFinished p.2.run.status then
          { s2 with workflow_runs := eraseKey s2.workflow_runs ctx.run_id }
        else s2)

/-- OrchestrationEngine::handle_task_outcome. -/
def handle_task_outcome (s : EngineState) (task : Task) (success : Bool) (now : Int) :
    Except PlatformError EngineState :=
  match workflow_context task with
  | none => .ok s
  | some ctx =>
    match lookup s.workflow_runs ctx.run_id with
    | none => .ok s
    | some state =>
      handleOutcomeCore s ctx (pop_ready_steps (mark_step_outcome state ctx.step_id success now))
        now

/-- The selected task flipped to InProgress by lease_next_task. -/
def inProgressTask (t : Task) (now : Int) : Task :=
  { t with status := .InProgress, started_at := some now }

/-- lease_next_task once a task has been selected: persist the status flip and
install the lease. -/
def lease_found (s : EngineState) (task : Task) (worker_id : Uuid) (lease_ttl now : Int)
    (freshToken : Uuid) (last_kind' : Option String) :
    Except PlatformError (Option TaskLease × EngineState) :=
  match update_task s.tasks task with
  | .error e => .error e
  | .ok tasks' =>
    .ok (some (start_lease s.lease_states task worker_id lease_ttl now freshToken).1,
      { s with
          tasks := tasks'
          lease_states := (start_lease s.lease_states task worker_id lease_ttl now freshToken).2
          last_kind := last_kind' })

/-- OrchestrationEngine::lease_next_task. -/
def lease_next_task (s : EngineState) (tenant_id worker_id : Uuid) (lease_ttl : Int)
    (now : Int) (freshToken : Uuid) :
    Except PlatformError (Option TaskLease × EngineState) :=
  match select_task s.scheduler s.task_policies s.last_kind
      (list_pending_tasks s.tasks tenant_id) with
  | (none, last_kind') => .ok (none, { s with last_kind := last_kind' })
  | (some task0, last_kind') =>
    lease_found s (inProgressTask task0 now) worker_id lease_ttl now freshToken last_kind'

/-- The Completed task record written by complete_task. -/
def completedTask (t : Task) (result : Option Payload) (now : Int) : Task :=
  { t with status := .Completed, completed_at := some now, result := result }

/-- complete_task after the task row has been fetched and updated in place. -/
def complete_task_found (s : EngineState) (task_id : Uuid) (task : Task) (now : Int) :
    Except PlatformError (Task × EngineState) :=
  match update_task s.tasks task with
  | .error e => .error e
  | .ok tasks' =>
    match handle_task_outcome
        { s with tasks := tasks', lease_states := clear_lease s.lease_states task_id }
        task true now with
    | .error e => .error e
    | .ok s2 => .ok (task, s2)

/-- OrchestrationEngine::complete_task. -/
def complete_task (s : EngineState) (task_id : Uuid) (result : Option Payload) (now : Int) :
    Except PlatformError (Task × EngineState) :=
  match get_task s.tasks task_id with
  | none => .error (.NotFound "task")
  | some task0 => complete_task_found s task_id (completedTask task0 result now) now

/-- fail_task's should_retry test: retry && attempts (already incremented)
within the policy's max_retries. -/
def shouldRetry (t : Task) (retry : Bool) (policy : TaskPolicy) : Bool :=
  retry && decide (t.attempts + 1 ≤ policy.max_retries)

/-- The updated task record written by fail_task (attempts incremented,
last_error recorded, then either reset to Pending with backoff or finalized
as Failed). -/
def fail_task_apply (t : Task) (error : String) (retry : Bool) (policy : TaskPolicy)
    (now : Int) : Task :=
  if shouldRetry t retry policy then
    { t with
        attempts := t.attempts + 1, last_error := some error, status := .Pending,
        started_at := none, completed_at := none,
        scheduled_at := now +
          (if policy.backoff_seconds.getD 0 > 0 then ((policy.backoff_seconds.getD 0 : Nat) : Int)
           else 0) }
  else
    { t with
        attempts := t.attempts + 1, last_error := some error, status := .Failed,
        completed_at := some now }

/-- fail_task after the task row has been fetched and updated in place. -/
def fail_task_found (s : EngineState) (task_id : Uuid) (task : Task) (should_retry : Bool)
    (now : Int) : Except PlatformError (Task × EngineState) :=
  match update_task s.tasks task with
  | .error e => .error e
  | .ok tasks' =>
    if should_retry then
      .ok (task, { s with tasks := tasks', lease_states := clear_lease s.lease_states task_id })
    else
      match handle_task_outcome
          { s with tasks := tasks', lease_states := clear_lease s.lease_states task_id }
          task false now with
      | .error e => .error e
      | .ok s2 => .ok (task, s2)

/-- OrchestrationEngine::fail_task. -/
def fail_task (s : EngineState) (task_id : Uuid) (error : String) (retry : Bool)
    (now : Int) : Except PlatformError (Task × EngineState) :=
  match get_task s.tasks task_id with
  | none => .error (.NotFound "task")
  | some task0 =>
    fail_task_found s task_id
      (fail_task_apply task0 error retry (policyFor s.task_policies task0.kind) now)
      (shouldRetry task0 retry (policyFor s.task_policies task0.kind)) now

/-- OrchestrationEngine::renew_task_lease.  The state is returned also on the
error paths (the version bump persists even when the task row is missing). -/
def renew_task_lease (s : EngineState) (task_id worker_id lease_token : Uuid)
    (extend_by : Int) (now : Int) : Except PlatformError TaskLease × EngineState :=
  match lookup s.lease_states task_id with
  | none => (.error (.InvalidInput "lease not found"), s)
  | some state =>
    if state.worker_id ≠ worker_id then (.error (.InvalidInput "worker mismatch"), s)
    else if state.token ≠ lease_token then (.error (.InvalidInput "invalid lease token"), s)
    else if state.lease_expires_at < now then (.error (.InvalidInput "lease expired"), s)
    else
      let state' := { state with
        version := state.version + 1, lease_expires_at := state.lease_expires_at + extend_by }
      let s' := { s with lease_states := mapInsert s.lease_states task_id state' }
      match get_task s.tasks task_id with
      | none => (.error (.NotFound "task"), s')
      | some task =>
        (.ok ⟨task, state'.worker_id, state'.leased_at, state'.lease_expires_at,
          state'.version, state'.token⟩, s')

/-- OrchestrationEngine::schedule_workflow. -/
def schedule_workflow (s : EngineState) (workflow_id tenant_id : Uuid)
    (initial_payload : Payload) (now : Int) (freshRunId : Uuid) :
    Except PlatformError (List Task × EngineState) :=
  match s.workflows.find? (fun w => w.id = workflow_id) with
  | none => .error (.NotFound "workflow")
  | some workflow =>
    if workflow.tenant_id ≠ tenant_id then .error .Forbidden
    else
      let run : WorkflowRun :=
        { id := freshRunId, tenant_id := tenant_id, workflow_id := workflow.id,
          status := .Running, current_step := none, created_at := now, updated_at := now,
          started_at := some now, completed_at := none, context := initial_payload }
      let state := WorkflowRunState.new run workflow.steps
      let (ready, state') := pop_ready_steps state
      match scheduleReadySteps run initial_payload now s ready with
      | .error e => .error e
      | .ok (scheduled, s') =>
        let run' := if scheduled.isEmpty then { run with status := .Pending } else run
        let state'' := { state' with run := run' }
        .ok (scheduled,
          { s' with workflow_runs := mapInsert s'.workflow_runs run'.id state'' })

/-- OrchestrationEngine::get_workflow_run. -/
def get_workflow_run (s : EngineState) (run_id : Uuid) : Option WorkflowRun :=
  (lookup s.workflow_runs run_id).map (fun state => state.run)

/-! ## Freshness of the uuid counter: no stored task id collides with a
fresh id, so task enqueues driven by the engine cannot Conflict. -/
def Fresh (s : EngineState) : Prop := ∀ t ∈ s.tasks, t.id < s.nextId

/-- Concrete store for the C10 witness: a task that is already Completed and
still has a lease entry. -/
def c10task : Task :=
  { id := 0, tenant_id := 1, kind := "k", payload := .value 3, status := .Completed,
    attempts := 2, scheduled_at := 0, started_at := some 1, completed_at := some 2,
    last_error := none, result := none, timeouts := none }

def c10s : EngineState :=
  { tasks := [c10task], workflows := [], scheduler := .Fifo, task_policies := [],
    workflow_runs := [],
    lease_states := [(0, ⟨4, 6, 2, 1, 99⟩)],
    last_kind := none, nextId := 1 }

/-- C4 witness store: an InProgress leased task of kind "k" whose registered
policy has max_retries = 0. -/
def c4task : Task :=
  { id := 0, tenant_id := 1, kind := "k", payload := .value 0, status := .InProgress,
    attempts := 0, scheduled_at := 0, started_at := some 1, completed_at := none,
    last_error := none, result := none, timeouts := none }

def c4s : EngineState :=
  { tasks := [c4task], workflows := [], scheduler := .Fifo,
    task_policies := [("k", ⟨none, 0, some 0, 100⟩)],
    workflow_runs := [], lease_states := [(0, ⟨1, 6, 2, 1, 99⟩)], last_kind := none,
    nextId := 1 }

/-- The single-task engine used for the C1 trace. -/
def c1task : Task :=
  { id := 0, tenant_id := 1, kind := "k", payload := .value 0, status := .Pending,
    attempts := 0, scheduled_at := 0, started_at := none, completed_at := none,
    last_error := none, result := none, timeouts := none }

def c1s0 : EngineState :=
  { tasks := [c1task], workflows := [], scheduler := .Fifo, task_policies := [],
    workflow_runs := [], lease_states := [], last_kind := none, nextId := 1 }

/-- Step 1 of the trace: lease the task (worker 100, ttl 300, now 0). -/
def c1r1 := lease_next_task c1s0 1 100 300 0 7

def c1s1 : EngineState :=
  match c1r1 with
  | .ok (_, s) => s
  | .error _ => c1s0

def c1v1 : Nat :=
  match c1r1 with
  | .ok (some l, _) => l.lease_version
  | _ => 0

def c1ok1 : Bool :=
  match c1r1 with
  | .ok (some _, _) => true
  | _ => false

/-- Step 2: fail the task with retry=true (default policy allows 3 retries). -/
def c1r2 := fail_task c1s1 0 "boom" true 1

def c1s2 : EngineState :=
  match c1r2 with
  | .ok (_, s) => s
  | .error _ => c1s1

def c1ok2 : Bool :=
  match c1r2 with
  | .ok _ => true
  | .error _ => false

/-- Step 3: lease the task again. -/
def c1r3 := lease_next_task c1s2 1 100 300 2 8

def c1v2 : Nat :=
  match c1r3 with
  | .ok (some l, _) => l.lease_version
  | _ => 0

def c1ok3 : Bool :=
  match c1r3 with
  | .ok (some _, _) => true
  | _ => false

/-- The renewal result on the leased engine of the C1 trace. -/
def c1renew := renew_task_lease c1s1 0 100 7 60 50

def c1renewLease : TaskLease :=
  match c1renew.1 with
  | .ok l => l
  | .error _ => ⟨c1task, 0, 0, 0, 0, 0⟩

instance {ε α : Type} [DecidableEq ε] [DecidableEq α] : DecidableEq (Except ε α) :=
  fun a b =>
    match a, b with
    | .ok x, .ok y => if h : x = y then isTrue (by rw [h]) else isFalse (by simp [h])
    | .error x, .error y => if h : x = y then isTrue (by rw [h]) else isFalse (by simp [h])
    | .ok _, .error _ => isFalse (by simp)
    | .error _, .ok _ => isFalse (by simp)

/-- C5 witness pending list: task of the last dispatched kind "a" scheduled
earlier, task of a different kind "b" scheduled later — "b" is selected. -/
def c5taskA : Task :=
  { id := 0, tenant_id := 1, kind := "a", payload := .value 0, status := .Pending,
    attempts := 0, scheduled_at := 0, started_at := none, completed_at := none,
    last_error := none, result := none, timeouts := none }

def c5taskB : Task :=
  { id := 1, tenant_id := 1, kind := "b", payload := .value 0, status := .Pending,
    attempts := 0, scheduled_at := 5, started_at := none, completed_at := none,
    last_error := none, result := none, timeouts := none }

/-! ## Claim C7 -/
/-- The runs index is clean when every indexed run is still non-terminal. -/
def RunsClean (runs : List (Uuid × WorkflowRunState)) : Prop :=
  ∀ id st, lookup runs id = some st →
    st.run.status = WorkflowRunStatus.Running ∨ st.run.status = WorkflowRunStatus.Pending

/-- C7 witness fixtures: a run with one inflight step and nothing waiting,
and the task carrying its workflow payload. -/
def c7step : WorkflowStep :=
  { id := 5, name := "primary", task_kind := "configure", dependencies := [] }

/-- A Running run (id 2, workflow 3) with empty waiting set. -/
def c7run : WorkflowRun :=
  ⟨2, 1, 3, .Running, none, 0, 0, some 0, none, .value 0⟩

def c7state : WorkflowRunState :=
  { run := c7run, step_lookup := [(5, c7step)], waiting_steps := [],
    inflight_steps := [5], completed_kinds := [], failed_kinds := [] }

def c7s : EngineState :=
  { tasks := [], workflows := [], scheduler := .Fifo, task_policies := [],
    workflow_runs := [(2, c7state)], lease_states := [], last_kind := none, nextId := 0 }

def c7task : Task :=
  { id := 9, tenant_id := 1, kind := "configure", payload := .step 3 2 5 (.value 0),
    status := .InProgress, attempts := 1, scheduled_at := 0, started_at := some 1,
    completed_at := none, last_error := none, result := none, timeouts := none }

end Orch

namespace Prov

/-! ## Provisioning service (provisioning.rs) -/
structure TenantCreateRequest where
  name : String
  idempotency_key : Option String
  settings : Option TenantSettings
  bootstrap_scopes : List Scope
  bootstrap_scripts : List String
deriving DecidableEq

structure TenantBootstrap where
  tenant : Tenant
  default_api_key : Option ApiKey
  bootstrap_scripts : List String
deriving DecidableEq

/-- The provisioning-relevant state: the in-process tenant idempotency map
plus the tenant and api-key stores. -/
structure ProvState where
  tenant_idempotency : List (String × TenantBootstrap)
  tenants : List Tenant
  api_keys : List ApiKeyRecord
deriving DecidableEq

def lookupStr {α : Type} (m : List (String × α)) (key : String) : Option α :=
  (m.find? (fun p => p.1 = key)).map (fun p => p.2)

def mapInsertStr {α : Type} (m : List (String × α)) (key : String) (v : α) :
    List (String × α) :=
  (key, v) :: m.filter (fun p => p.1 ≠ key)

/-- InMemoryPersistence.insert_tenant. -/
def insert_tenant (tenants : List Tenant) (tenant : Tenant) :
    Except PlatformError (List Tenant) :=
  if tenants.any (fun t => t.id = tenant.id) then .error (.Conflict "tenant")
  else .ok (tenant :: tenants)

/-- The Tenant record built by create_tenant_with_options. -/
def newTenant (req : TenantCreateRequest) (freshTenantId : Uuid) (now : Int) : Tenant :=
  { id := freshTenantId, name := req.name, created_at := now,
    settings := req.settings.getD {} }

/-- Bootstrap scopes default to [Admin] when the request has none. -/
def reqScopes (req : TenantCreateRequest) : List Scope :=
  if req.bootstrap_scopes.isEmpty then [Scope.Admin] else req.bootstrap_scopes

/-- Bootstrap scripts default to the cassctl bootstrap command. -/
def tenantScripts (req : TenantCreateRequest) (id : Uuid) : List String :=
  if req.bootstrap_scripts.isEmpty then ["cassctl bootstrap --tenant " ++ toString id]
  else req.bootstrap_scripts

def defaultKeyLabel (id : Uuid) : String :=
  "tenant:" ++ toString id ++ ":default"

/-- Issue the default api key: None when the scope list is empty (a dead
branch, since reqScopes never is), Some otherwise. -/
def issueDefaultKey (api_keys : List ApiKeyRecord) (hash : String → String)
    (tenant_id : Uuid) (scopes : List Scope) (freshKeyId : Uuid) (secret_b64 : String)
    (now : Int) : Except PlatformError (Option ApiKey × List ApiKeyRecord) :=
  if scopes.isEmpty then .ok (none, api_keys)
  else
    match issue_api_key api_keys hash tenant_id (defaultKeyLabel tenant_id) scopes freshKeyId
        secret_b64 now with
    | .error e => .error e
    | .ok (key, store') => .ok (some key, store')

/-- Record the bundle: insert it under the idempotency key when one was
given. -/
def finishTenantBundle (s : ProvState) (req : TenantCreateRequest)
    (tenants' : List Tenant) (api_keys' : List ApiKeyRecord) (bundle : TenantBootstrap) :
    TenantBootstrap × ProvState :=
  match req.idempotency_key with
  | some key =>
    (bundle, ⟨mapInsertStr s.tenant_idempotency key bundle, tenants', api_keys'⟩)
  | none =>
    (bundle, ⟨s.tenant_idempotency, tenants', api_keys'⟩)

/-- The cache-miss path of create_tenant_with_options. -/
def create_tenant_fresh (s : ProvState) (req : TenantCreateRequest)
    (freshTenantId freshKeyId : Uuid) (secret_b64 : String) (hash : String → String)
    (now : Int) : Except PlatformError (TenantBootstrap × ProvState) :=
  if strTrim req.name = "" then .error (.InvalidInput "tenant name required")
  else
    match insert_tenant s.tenants (newTenant req freshTenantId now) with
    | .error e => .error e
    | .ok tenants' =>
      match issueDefaultKey s.api_keys hash freshTenantId (reqScopes req) freshKeyId
          secret_b64 now with
      | .error e => .error e
      | .ok (default_api_key, api_keys') =>
        .ok (finishTenantBundle s req tenants' api_keys'
          ⟨newTenant req freshTenantId now, default_api_key, tenantScripts req freshTenantId⟩)

/-- ProvisioningService::create_tenant_with_options.  The fresh uuids, the
OsRng secret and hash_secret come in as parameters. -/
def create_tenant_with_options (s : ProvState) (req : TenantCreateRequest)
    (freshTenantId freshKeyId : Uuid) (secret_b64 : String) (hash : String → String)
    (now : Int) : Except PlatformError (TenantBootstrap × ProvState) :=
  match req.idempotency_key with
  | some key =>
    match lookupStr s.tenant_idempotency key with
    | some existing => .ok (existing, s)
    | none => create_tenant_fresh s req freshTenantId freshKeyId secret_b64 hash now
  | none => create_tenant_fresh s req freshTenantId freshKeyId secret_b64 hash now

def c9req : TenantCreateRequest :=
  { name := "Acme", idempotency_key := some "t1", settings := none,
    bootstrap_scopes := [Scope.Admin], bootstrap_scripts := [] }

def c9s0 : ProvState := ⟨[], [], []⟩

/-- First bootstrap call of the C9 trace. -/
def c9r1 := create_tenant_with_options c9s0 c9req 10 11 "sec" (fun s => s) 0

def c9B : TenantBootstrap :=
  match c9r1 with
  | .ok (b, _) => b
  | .error _ => ⟨⟨0, "", 0, {}⟩, none, []⟩

def c9s1 : ProvState :=
  match c9r1 with
  | .ok (_, s) => s
  | .error _ => c9s0

/-! ## Agents and the heartbeat sweep (provisioning.rs / persistence.rs) -/
inductive AgentStatus where
  | Registered
  | Active
  | Suspended
deriving DecidableEq

structure AgentMetadata where
  capabilities : List String := []
  tags : List (String × String) := []
deriving DecidableEq

structure Agent where
  id : Uuid
  tenant_id : Uuid
  project_id : Uuid
  hostname : String
  status : AgentStatus
  last_seen : Option Int
  created_at : Int
  metadata : AgentMetadata
deriving DecidableEq

/-- The is_stale test of sweep_inactive_agents: last_seen absent or strictly
older than the threshold. -/
def isStale (threshold : Int) (a : Agent) : Bool :=
  match a.last_seen with
  | some last_seen => last_seen < threshold
  | none => true

/-- The sweep's update condition: stale and not already Suspended. -/
def needsSuspend (threshold : Int) (a : Agent) : Bool :=
  isStale threshold a && decide (a.status ≠ AgentStatus.Suspended)

def suspendAgent (a : Agent) : Agent :=
  { a with status := AgentStatus.Suspended }

/-- InMemoryPersistence.update_agent (the sweep only updates agents it has
just listed, so the NotFound branch of the store is unreachable there). -/
def updateAgent (agents : List Agent) (a : Agent) : List Agent :=
  agents.map (fun u => if u.id = a.id then a else u)

def hostLE (a b : Agent) : Prop := a.hostname ≤ b.hostname

instance : DecidableRel hostLE :=
  fun a b => inferInstanceAs (Decidable (a.hostname ≤ b.hostname))

instance : IsTotal Agent hostLE := ⟨fun a b => le_total a.hostname b.hostname⟩

instance : IsTrans Agent hostLE := ⟨fun a b c => le_trans⟩

def nameLE (a b : Tenant) : Prop := a.name ≤ b.name

instance : DecidableRel nameLE :=
  fun a b => inferInstanceAs (Decidable (a.name ≤ b.name))

instance : IsTotal Tenant nameLE := ⟨fun a b => le_total a.name b.name⟩

instance : IsTrans Tenant nameLE := ⟨fun a b c => le_trans⟩

/-- InMemoryPersistence.list_agents: the tenant's agents sorted by hostname. -/
def list_agents (agents : List Agent) (tenant_id : Uuid) : List Agent :=
  (agents.filter (fun a => a.tenant_id = tenant_id)).insertionSort hostLE

/-- InMemoryPersistence.list_tenants: all tenants sorted by name. -/
def list_tenants (tenants : List Tenant) : List Tenant :=
  tenants.insertionSort nameLE

/-- One iteration of the sweep's inner loop over a listed agent. -/
def sweepStep (threshold : Int) (acc : List Agent × List Agent) (agent : Agent) :
    List Agent × List Agent :=
  if needsSuspend threshold agent then
    (updateAgent acc.1 (suspendAgent agent), acc.2 ++ [suspendAgent agent])
  else acc

/-- The sweep's pass over one tenant: list its agents from the current store
and fold the inner loop. -/
def sweepTenant (threshold : Int) (acc : List Agent × List Agent) (tenant : Tenant) :
    List Agent × List Agent :=
  (list_agents acc.1 tenant.id).foldl (sweepStep threshold) acc

/-- ProvisioningService::sweep_inactive_agents: first component is the store
it leaves behind, second the returned suspended agents. -/
def sweep_inactive_agents (tenants : List Tenant) (agents : List Agent)
    (heartbeat_timeout now : Int) : List Agent × List Agent :=
  (list_tenants tenants).foldl (sweepTenant (now - heartbeat_timeout)) (agents, [])

/-- Proof-side description of what the sweep has done to an agent once the
tenants whose ids are in `processed` have been handled. -/
def sweptAgent (th : Int) (processed : List Uuid) (u : Agent) : Agent :=
  if u.tenant_id ∈ processed ∧ needsSuspend th u = true then suspendAgent u else u

def c8tenants : List Tenant := [⟨1, "acme", 0, {}⟩, ⟨2, "beta", 0, {}⟩]

def c8agents : List Agent :=
  [⟨10, 1, 0, "h1", AgentStatus.Active, some 100, 0, {}⟩,
   ⟨11, 1, 0, "h2", AgentStatus.Suspended, some 50, 0, {}⟩,
   ⟨12, 2, 0, "h3", AgentStatus.Active, none, 0, {}⟩,
   ⟨13, 2, 0, "h4", AgentStatus.Active, some 900, 0, {}⟩]

end Prov

theorem b64index_b64char (n : Nat) (h : n < 64) : b64index (b64char n) = some n := by
  have key : ∀ m : Fin 64, b64index (b64char m.val) = some m.val := by decide
  exact key ⟨n, h⟩

theorem b64char_ne_dot (n : Nat) : b64char n ≠ '.' := by
  rcases Nat.lt_or_ge n 64 with h | h
  · have key : ∀ m : Fin 64, b64char m.val ≠ '.' := by decide
    exact key ⟨n, h⟩
  · have hlen : ("ABCDEFGHIJKLMNOPQRSTUVWXYZabcdefghijklmnopqrstuvwxyz0123456789-_".toList).length = 64 := by decide
    unfold b64char
    rw [List.getD_eq_default]
    · decide
    · omega

theorem not_dot_mem_b64encode (bs : List Nat) : '.' ∉ b64encode bs := by
  induction bs using b64encode.induct with
  | case1 b0 b1 b2 rest ih =>
      intro hmem
      simp only [b64encode, List.mem_cons] at hmem
      rcases hmem with h | h | h | h | h
      · exact b64char_ne_dot _ h.symm
      · exact b64char_ne_dot _ h.symm
      · exact b64char_ne_dot _ h.symm
      · exact b64char_ne_dot _ h.symm
      · exact ih h
  | case2 b0 b1 =>
      intro hmem
      simp only [b64encode, List.mem_cons, List.not_mem_nil, or_false] at hmem
      rcases hmem with h | h | h
      · exact b64char_ne_dot _ h.symm
      · exact b64char_ne_dot _ h.symm
      · exact b64char_ne_dot _ h.symm
  | case3 b0 =>
      intro hmem
      simp only [b64encode, List.mem_cons, List.not_mem_nil, or_false] at hmem
      rcases hmem with h | h
      · exact b64char_ne_dot _ h.symm
      · exact b64char_ne_dot _ h.symm
  | case4 => simp [b64encode]

theorem mapM_b64index_b64encode (bs : List Nat) (h : ∀ b ∈ bs, b < 256) :
    (b64encode bs).mapM b64index = some (b64sextets bs) := by
  induction bs using b64encode.induct with
  | case1 b0 b1 b2 rest ih =>
      have h0 : b0 < 256 := h b0 (by simp)
      have h1 : b1 < 256 := h b1 (by simp)
      have h2 : b2 < 256 := h b2 (by simp)
      have hrest : ∀ b ∈ rest, b < 256 := fun b hb => h b (by simp [hb])
      simp only [b64encode, b64sextets, List.mapM_cons,
        b64index_b64char _ (by omega : b0 / 4 < 64),
        b64index_b64char _ (by omega : (b0 % 4) * 16 + b1 / 16 < 64),
        b64index_b64char _ (by omega : (b1 % 16) * 4 + b2 / 64 < 64),
        b64index_b64char _ (by omega : b2 % 64 < 64),
        ih hrest]
      rfl
  | case2 b0 b1 =>
      have h0 : b0 < 256 := h b0 (by simp)
      have h1 : b1 < 256 := h b1 (by simp)
      simp only [b64encode, b64sextets, List.mapM_cons, List.mapM_nil,
        b64index_b64char _ (by omega : b0 / 4 < 64),
        b64index_b64char _ (by omega : (b0 % 4) * 16 + b1 / 16 < 64),
        b64index_b64char _ (by omega : (b1 % 16) * 4 < 64)]
      rfl
  | case3 b0 =>
      have h0 : b0 < 256 := h b0 (by simp)
      simp only [b64encode, b64sextets, List.mapM_cons, List.mapM_nil,
        b64index_b64char _ (by omega : b0 / 4 < 64),
        b64index_b64char _ (by omega : (b0 % 4) * 16 < 64)]
      rfl
  | case4 => rfl

theorem b64regroup_b64sextets (bs : List Nat) (h : ∀ b ∈ bs, b < 256) :
    b64regroup (b64sextets bs) = some bs := by
  induction bs using b64sextets.induct with
  | case1 b0 b1 b2 rest ih =>
      have h0 : b0 < 256 := h b0 (by simp)
      have h1 : b1 < 256 := h b1 (by simp)
      have h2 : b2 < 256 := h b2 (by simp)
      have hrest : ∀ b ∈ rest, b < 256 := fun b hb => h b (by simp [hb])
      simp only [b64sextets, b64regroup, ih hrest, Option.map_some]
      have e0 : b0 / 4 * 4 + ((b0 % 4) * 16 + b1 / 16) / 16 = b0 := by omega
      have e1 : ((b0 % 4) * 16 + b1 / 16) % 16 * 16 + ((b1 % 16) * 4 + b2 / 64) / 4 = b1 := by
        omega
      have e2 : ((b1 % 16) * 4 + b2 / 64) % 4 * 64 + b2 % 64 = b2 := by omega
      rw [e0, e1, e2]
      simp
  | case2 b0 b1 =>
      have h0 : b0 < 256 := h b0 (by simp)
      have h1 : b1 < 256 := h b1 (by simp)
      have hz : ((b1 % 16) * 4) % 4 = 0 := by omega
      simp only [b64sextets, b64regroup, hz, if_pos rfl]
      have e0 : b0 / 4 * 4 + ((b0 % 4) * 16 + b1 / 16) / 16 = b0 := by omega
      have e1 : ((b0 % 4) * 16 + b1 / 16) % 16 * 16 + (b1 % 16) * 4 / 4 = b1 := by omega
      rw [e0, e1]
      simp
  | case3 b0 =>
      have h0 : b0 < 256 := h b0 (by simp)
      have hz : ((b0 % 4) * 16) % 16 = 0 := by omega
      simp only [b64sextets, b64regroup, hz, if_pos rfl]
      have e0 : b0 / 4 * 4 + (b0 % 4) * 16 / 16 = b0 := by omega
      rw [e0]
      simp
  | case4 => simp [b64sextets, b64regroup]

theorem b64decode_b64encode (bs : List Nat) (h : ∀ b ∈ bs, b < 256) :
    b64decode (b64encode bs) = some bs := by
  unfold b64decode
  rw [mapM_b64index_b64encode bs h]
  exact b64regroup_b64sextets bs h

theorem splitDots_ne_nil (cs : List Char) : splitDots cs ≠ [] := by
  induction cs with
  | nil => simp [splitDots]
  | cons c rest ih =>
      simp only [splitDots]
      by_cases h : c = '.'
      · simp [h]
      · simp only [if_neg h]
        cases hs : splitDots rest with
        | nil => simp
        | cons p ps => simp

theorem splitDots_no_dot (a : List Char) (ha : '.' ∉ a) : splitDots a = [a] := by
  induction a with
  | nil => rfl
  | cons c rest ih =>
      have hc : c ≠ '.' := fun h => ha (by simp [h])
      have hrest : '.' ∉ rest := fun h => ha (by simp [h])
      simp only [splitDots, if_neg hc, ih hrest]

theorem splitDots_append_dot (a r : List Char) (ha : '.' ∉ a) :
    splitDots (a ++ '.' :: r) = a :: splitDots r := by
  induction a with
  | nil => simp [splitDots]
  | cons c rest ih =>
      have hc : c ≠ '.' := fun h => ha (by simp [h])
      have hrest : '.' ∉ rest := fun h => ha (by simp [h])
      simp only [List.cons_append, splitDots, if_neg hc]
      rw [show rest.append ('.' :: r) = rest ++ '.' :: r from rfl, ih hrest]

theorem splitDots_three (a b c : List Char) (ha : '.' ∉ a) (hb : '.' ∉ b) (hc : '.' ∉ c) :
    splitDots (a ++ '.' :: (b ++ '.' :: c)) = [a, b, c] := by
  rw [splitDots_append_dot a _ ha, splitDots_append_dot b _ hb, splitDots_no_dot c hc]

/-! ## Supporting lemmas about verify_jwt ∘ sign_jwt -/
theorem hs256HeaderBytes_lt : ∀ x ∈ hs256HeaderBytes, x < 256 := by decide

theorem containsHS256_header : containsHS256 hs256HeaderBytes = true := by decide

theorem verify_of_parts (mac : List Nat → List Char → List Nat)
    (jsonDec : List Nat → Option TokenClaims) (secret : List Nat)
    (h p s : List Char) (hb pb : List Nat) (claims : TokenClaims)
    (hnh : '.' ∉ h) (hnp : '.' ∉ p) (hns : '.' ∉ s)
    (hdh : b64decode h = some hb) (hct : containsHS256 hb = true)
    (hds : b64decode s = some (mac secret (h ++ '.' :: p)))
    (hdp : b64decode p = some pb) (hj : jsonDec pb = some claims) :
    verify_jwt mac jsonDec secret (h ++ '.' :: (p ++ '.' :: s)) = .ok claims := by
  unfold verify_jwt
  rw [splitDots_three h p s hnh hnp hns]
  simp only [hdh, hct, hds, hdp, hj]
  simp

theorem verify_sign_jwt (mac : List Nat → List Char → List Nat)
    (jsonEnc : TokenClaims → List Nat) (jsonDec : List Nat → Option TokenClaims)
    (secret : List Nat) (claims : TokenClaims)
    (hjson : jsonDec (jsonEnc claims) = some claims)
    (hencB : ∀ x ∈ jsonEnc claims, x < 256)
    (hmacB : ∀ x ∈ mac secret
      (b64encode hs256HeaderBytes ++ '.' :: b64encode (jsonEnc claims)), x < 256) :
    verify_jwt mac jsonDec secret (sign_jwt mac jsonEnc secret claims) = .ok claims := by
  have hshape : sign_jwt mac jsonEnc secret claims
      = b64encode hs256HeaderBytes
        ++ '.' :: (b64encode (jsonEnc claims)
          ++ '.' :: b64encode (mac secret
            (b64encode hs256HeaderBytes ++ '.' :: b64encode (jsonEnc claims)))) := by
    simp only [sign_jwt, List.append_assoc, List.cons_append]
  rw [hshape]
  exact verify_of_parts mac jsonDec secret _ _ _ hs256HeaderBytes (jsonEnc claims) claims
    (not_dot_mem_b64encode _) (not_dot_mem_b64encode _) (not_dot_mem_b64encode _)
    (b64decode_b64encode _ hs256HeaderBytes_lt) containsHS256_header
    (b64decode_b64encode _ hmacB) (b64decode_b64encode _ hencB) hjson

theorem map_fromStr_asStr (scopes : List Scope)
    (h : ∀ s ∈ scopes, Scope.fromStr (Scope.asStr s) = s) :
    (scopes.map Scope.asStr).map Scope.fromStr = scopes := by
  rw [List.map_map]
  calc scopes.map (Scope.fromStr ∘ Scope.asStr) = scopes.map id :=
        List.map_congr_left (fun a ha => h a ha)
    _ = scopes := List.map_id scopes

/-- C2 counterexample: rotating an inactive (revoked) key fails with
InvalidInput("api key inactive"), not with Conflict as the claim states. -/
theorem rotate_inactive_conflict_cex :
    (rotate_api_key c2store (fun s => s) 1 3 "sec" 5).1
        = .error (.InvalidInput "api key inactive")
      ∧ rotateIsConflict (rotate_api_key c2store (fun s => s) 1 3 "sec" 5).1 = false := by
  constructor
  · rfl
  · rfl

/-- C2 (amended): for every api key record that exists but is already inactive
(revoked or soft-deleted), rotate_api_key fails with
InvalidInput("api key inactive") — not Conflict — and the stored records are
left unchanged by the failed call. -/
theorem rotate_inactive_fails_invalid_input
    (store : List ApiKeyRecord) (hash : String → String) (id freshId : Uuid)
    (secret_b64 : String) (now : Int) (r : ApiKeyRecord)
    (hget : get_api_key store id = some r)
    (hinactive : r.revoked = true ∨ r.deleted_at.isSome = true) :
    rotate_api_key store hash id freshId secret_b64 now
      = (.error (.InvalidInput "api key inactive"), store) := by
  unfold rotate_api_key
  rw [hget]
  have hcond : (r.revoked || r.deleted_at.isSome) = true := by
    rcases hinactive with h | h <;> simp [h]
  simp [hcond]

/-- C2 witness: the amended theorem applied at the concrete revoked record. -/
theorem rotate_inactive_fails_invalid_input_witness :
    rotate_api_key c2store (fun s => s) 1 3 "sec" 5
      = (.error (.InvalidInput "api key inactive"), c2store) :=
  rotate_inactive_fails_invalid_input c2store (fun s => s) 1 3 "sec" 5 c2record
    (by rfl) (Or.inl rfl)

/-! ## Claim C3 -/
/-- C3 (amended): verify_jwt's header check is a byte-substring check, not a
literal-header check: a token whose decoded header does not contain the byte
substring "HS256" is rejected with Unauthorized, and any accepted token's
decoded header contains that substring — the header need not literally be
the json object with alg HS256 and typ JWT. -/
theorem verify_jwt_header_substring_check
    (mac : List Nat → List Char → List Nat) (jsonDec : List Nat → Option TokenClaims)
    (secret : List Nat) (token : List Char) :
    (∀ header payload signature header_bytes,
      splitDots token = [header, payload, signature] →
      b64decode header = some header_bytes →
      containsHS256 header_bytes = false →
      verify_jwt mac jsonDec secret token = .error .Unauthorized)
    ∧ (∀ claims, verify_jwt mac jsonDec secret token = .ok claims →
        ∃ header payload signature header_bytes,
          splitDots token = [header, payload, signature]
          ∧ b64decode header = some header_bytes
          ∧ containsHS256 header_bytes = true) := by
  constructor
  · intro header payload signature header_bytes hsplit hdec hno
    unfold verify_jwt
    rw [hsplit]
    simp only [hdec, hno]
    simp
  · intro claims hok
    unfold verify_jwt at hok
    split at hok
    · rename_i header payload signature hsplit
      refine ⟨header, payload, signature, ?_⟩
      split at hok
      · simp at hok
      · rename_i header_bytes hdec
        split at hok
        · simp at hok
        · rename_i hcheck
          exact ⟨header_bytes, hsplit, hdec, by simpa using hcheck⟩
    · simp at hok

/-- C3 counterexample: a token whose decoded header is not the literal
HS256 header (its alg is "none") but whose mac is valid is accepted by
verify_jwt, refuting the claim that acceptance requires the literal header
and that any other declared alg is rejected. -/
theorem verify_jwt_literal_header_cex :
    verify_jwt c3mac c3jsonDec [] c3token = .ok c3claims
      ∧ b64decode (b64encode c3evilHeader) = some c3evilHeader
      ∧ c3evilHeader ≠ hs256HeaderBytes := by
  refine ⟨?_, by decide, by decide⟩
  rfl

/-- C6 (amended): validating the access token produced by
issue_token_from_context yields a context with the same principal_id,
tenant_id and scopes, provided the json codec round-trips the claims, the
mac and encoded claims are byte strings, every scope of ctx round-trips
through its string form (no Custom scope colliding with a named scope),
ctx's audience is compatible with the configured default audience, and the
resolved ttl is nonnegative. -/
theorem validate_issue_token_roundtrip
    (cfg : AuthServiceCfg) (tenants : List Tenant)
    (mac : List Nat → List Char → List Nat)
    (jsonEnc : TokenClaims → List Nat) (jsonDec : List Nat → Option TokenClaims)
    (ctx : AuthContext) (ttl : Option Int) (now : Int) (nonce nonceRefresh : String)
    (hjson : jsonDec (jsonEnc (issuedAccessClaims cfg tenants ctx ttl now nonce))
      = some (issuedAccessClaims cfg tenants ctx ttl now nonce))
    (hencB : ∀ x ∈ jsonEnc (issuedAccessClaims cfg tenants ctx ttl now nonce), x < 256)
    (hmacB : ∀ s i, ∀ x ∈ mac s i, x < 256)
    (hscopes : ∀ s ∈ ctx.scopes, Scope.fromStr (Scope.asStr s) = s)
    (haud : cfg.default_audience = none ∨ ctx.audience = none
      ∨ ctx.audience = cfg.default_audience)
    (httl : 0 ≤ resolve_access_ttl cfg tenants ctx.tenant_id ttl) :
    validate_token cfg mac jsonDec
        (issue_token_from_context cfg tenants mac jsonEnc ctx ttl now nonce nonceRefresh).token
        now
      = .ok (authContextOfClaims (issuedAccessClaims cfg tenants ctx ttl now nonce))
    ∧ (authContextOfClaims (issuedAccessClaims cfg tenants ctx ttl now nonce)).principal_id
        = ctx.principal_id
    ∧ (authContextOfClaims (issuedAccessClaims cfg tenants ctx ttl now nonce)).tenant_id
        = ctx.tenant_id
    ∧ (authContextOfClaims (issuedAccessClaims cfg tenants ctx ttl now nonce)).scopes
        = ctx.scopes := by
  have htok : (issue_token_from_context cfg tenants mac jsonEnc ctx ttl now nonce
      nonceRefresh).token
      = sign_jwt mac jsonEnc cfg.secret (issuedAccessClaims cfg tenants ctx ttl now nonce) := rfl
  have hver : verify_jwt mac jsonDec cfg.secret
      (sign_jwt mac jsonEnc cfg.secret (issuedAccessClaims cfg tenants ctx ttl now nonce))
      = .ok (issuedAccessClaims cfg tenants ctx ttl now nonce) :=
    verify_sign_jwt mac jsonEnc jsonDec cfg.secret _ hjson hencB (hmacB _ _)
  have h1 : ¬ ((issuedAccessClaims cfg tenants ctx ttl now nonce).token_use
      ≠ TokenUse.Access) := by
    simp [issuedAccessClaims, TokenClaims.from_context]
  have h2 : ¬ ((issuedAccessClaims cfg tenants ctx ttl now nonce).exp < now) := by
    have hexp : (issuedAccessClaims cfg tenants ctx ttl now nonce).exp
        = now + resolve_access_ttl cfg tenants ctx.tenant_id ttl := rfl
    rw [hexp]
    omega
  have h3 : ¬ ((issuedAccessClaims cfg tenants ctx ttl now nonce).iss ≠ cfg.issuer) := by
    simp [issuedAccessClaims, TokenClaims.from_context, issuedContext]
  have hensure : ensure_claims_valid cfg (issuedAccessClaims cfg tenants ctx ttl now nonce)
      .Access now = .ok () := by
    unfold ensure_claims_valid
    rw [if_neg h1, if_neg h2, if_neg h3]
    cases hda : cfg.default_audience with
    | none => rfl
    | some expected =>
      have haudv : (issuedAccessClaims cfg tenants ctx ttl now nonce).aud = some expected := by
        have hform : (issuedAccessClaims cfg tenants ctx ttl now nonce).aud
            = (match ctx.audience with | none => cfg.default_audience | some a => some a) := rfl
        rw [hform]
        rcases haud with h | h | h
        · rw [h] at hda
          exact absurd hda (by simp)
        · rw [h, hda]
        · rw [h, hda]
      simp [haudv]
  refine ⟨?_, rfl, rfl, map_fromStr_asStr ctx.scopes hscopes⟩
  simp only [validate_token, htok, hver, hensure]

/-- C6 witness: the round trip at a concrete context with scope Admin. -/
theorem validate_issue_token_roundtrip_witness :
    validate_token c6wCfg c6wMac c6wDec
        (issue_token_from_context c6wCfg [] c6wMac c6wEnc c6wCtx (some 60) 0 "n" "nr").token 0
      = .ok (authContextOfClaims c6wClaims)
    ∧ (authContextOfClaims c6wClaims).principal_id = c6wCtx.principal_id
    ∧ (authContextOfClaims c6wClaims).tenant_id = c6wCtx.tenant_id
    ∧ (authContextOfClaims c6wClaims).scopes = c6wCtx.scopes :=
  validate_issue_token_roundtrip c6wCfg [] c6wMac c6wEnc c6wDec c6wCtx (some 60) 0 "n" "nr"
    rfl (by simp [c6wEnc]) (by intro s i x hx; simp [c6wMac] at hx; omega)
    (by decide) (Or.inl rfl) (by decide)

/-- C6 counterexample: for the context with scopes [Custom "admin"] (tenant
present in the store), validation of the issued token succeeds but returns
scopes [Admin] — not the same scopes — refuting the claim as stated. -/
theorem validate_issue_token_scopes_cex :
    validate_token c6wCfg c6wMac c6xDec
        (issue_token_from_context c6wCfg c6xTenants c6wMac c6wEnc c6xCtx (some 60) 0 "n"
          "nr").token 0
      = .ok (authContextOfClaims c6xClaims)
    ∧ (authContextOfClaims c6xClaims).scopes = [Scope.Admin]
    ∧ c6xCtx.scopes = [Scope.Custom "admin"]
    ∧ (authContextOfClaims c6xClaims).scopes ≠ c6xCtx.scopes := by
  refine ⟨?_, by decide, by decide, by decide⟩
  rfl

/-- C3 witness: the amended rejection property applied to a concrete token
whose header has no HS256 substring. -/
theorem verify_jwt_header_substring_check_witness :
    verify_jwt c3mac c3jsonDec [] c3wtoken = .error .Unauthorized :=
  (verify_jwt_header_substring_check c3mac c3jsonDec [] c3wtoken).1
    (b64encode c3plainHeader) (b64encode [1]) (b64encode [0]) c3plainHeader
    (by decide) (by decide) (by decide)

namespace Orch

theorem schedule_task_ok (s : EngineState) (request : TaskRequest) (now : Int)
    (hf : Fresh s) :
    ∃ task s', schedule_task s request now = .ok (task, s')
      ∧ Fresh s' ∧ s'.workflow_runs = s.workflow_runs ∧ s'.lease_states = s.lease_states := by
  have hnone : (s.tasks.any fun t => t.id = s.nextId) = false := by
    rw [List.any_eq_false]
    intro t ht
    simp only [decide_eq_true_eq]
    exact Nat.ne_of_lt (hf t ht)
  unfold schedule_task enqueue_task newTask
  simp only [hnone, Bool.false_eq_true, if_false]
  refine ⟨_, _, rfl, ?_, rfl, rfl⟩
  intro t ht
  simp only [List.mem_append, List.mem_singleton] at ht
  rcases ht with ht | ht
  · exact Nat.lt_succ_of_lt (hf t ht)
  · subst ht
    exact Nat.lt_succ_self s.nextId

theorem scheduleReadySteps_ok (run : WorkflowRun) (input : Payload) (now : Int)
    (steps : List WorkflowStep) :
    ∀ s : EngineState, Fresh s →
    ∃ tasks s', scheduleReadySteps run input now s steps = .ok (tasks, s')
      ∧ Fresh s' ∧ s'.workflow_runs = s.workflow_runs ∧ s'.lease_states = s.lease_states := by
  induction steps with
  | nil =>
      intro s hf
      exact ⟨[], s, rfl, hf, rfl, rfl⟩
  | cons step rest ih =>
      intro s hf
      obtain ⟨task, s1, hsched, hf1, hruns1, hls1⟩ := schedule_task_ok s
        { tenant_id := run.tenant_id, kind := step.task_kind,
          payload := .step run.workflow_id run.id step.id input } now hf
      obtain ⟨tasks, s2, hrest, hf2, hruns2, hls2⟩ := ih s1 hf1
      refine ⟨task :: tasks, s2, ?_, hf2, hruns2.trans hruns1, hls2.trans hls1⟩
      rw [scheduleReadySteps]
      simp only [hsched]
      simp only [hrest]

theorem handleOutcomeCore_ok (s : EngineState) (ctx : WorkflowContext)
    (p : List WorkflowStep × WorkflowRunState) (now : Int) (hf : Fresh s) :
    ∃ s', handleOutcomeCore s ctx p now = .ok s' := by
  obtain ⟨tasks, s2, hsched, hf2, hruns2, hls2⟩ :=
    scheduleReadySteps_ok p.2.run p.2.run.context now p.1
      { s with workflow_runs := mapInsert s.workflow_runs ctx.run_id p.2 } hf
  unfold handleOutcomeCore
  rw [hsched]
  exact ⟨_, rfl⟩

theorem handle_task_outcome_ok (s : EngineState) (task : Task) (success : Bool)
    (now : Int) (hf : Fresh s) :
    ∃ s', handle_task_outcome s task success now = .ok s' := by
  unfold handle_task_outcome
  split
  · exact ⟨s, rfl⟩
  · rename_i ctx hctx
    split
    · exact ⟨s, rfl⟩
    · rename_i state hrun
      apply handleOutcomeCore_ok
      exact hf

theorem update_task_found (tasks : List Task) (task t : Task) (hmem : t ∈ tasks)
    (hid : t.id = task.id) :
    update_task tasks task = .ok (tasks.map fun u => if u.id = task.id then task else u) := by
  unfold update_task
  rw [if_pos]
  rw [List.any_eq_true]
  exact ⟨t, hmem, by simp [hid]⟩

theorem fresh_after_update (s : EngineState) (task : Task) (ls : List (Uuid × LeaseState))
    (hf : Fresh s) (hlt : task.id < s.nextId) :
    Fresh { s with
        tasks := s.tasks.map fun u => if u.id = task.id then task else u
        lease_states := ls } := by
  intro u hu
  rcases List.mem_map.mp hu with ⟨v, hv, rfl⟩
  by_cases hc : v.id = task.id
  · rw [if_pos hc]
    exact hlt
  · rw [if_neg hc]
    exact hf v hv

theorem complete_task_found_ok (s : EngineState) (task_id : Uuid) (task : Task) (now : Int)
    (tasks' : List Task) (hupd : update_task s.tasks task = .ok tasks')
    (hf' : Fresh { s with tasks := tasks', lease_states := clear_lease s.lease_states task_id }) :
    ∃ s', complete_task_found s task_id task now = .ok (task, s') := by
  obtain ⟨s2, hout⟩ := handle_task_outcome_ok
    { s with tasks := tasks', lease_states := clear_lease s.lease_states task_id }
    task true now hf'
  unfold complete_task_found
  rw [hupd]
  simp only [hout]
  exact ⟨s2, rfl⟩

theorem fail_task_found_ok (s : EngineState) (task_id : Uuid) (task : Task)
    (should_retry : Bool) (now : Int) (tasks' : List Task)
    (hupd : update_task s.tasks task = .ok tasks')
    (hf' : Fresh { s with tasks := tasks', lease_states := clear_lease s.lease_states task_id }) :
    ∃ s', fail_task_found s task_id task should_retry now = .ok (task, s') := by
  unfold fail_task_found
  rw [hupd]
  cases should_retry with
  | true => exact ⟨_, rfl⟩
  | false =>
    obtain ⟨s2, hout⟩ := handle_task_outcome_ok
      { s with tasks := tasks', lease_states := clear_lease s.lease_states task_id }
      task false now hf'
    simp only [Bool.false_eq_true, if_false, hout]
    exact ⟨s2, rfl⟩

/-! ## Claim C10 -/
/-- C10: complete_task enforces no status precondition: for every task id
present in the store — whatever the task's current status and whether a lease
exists — it succeeds, returning the task with status Completed, completed_at
now and the given result; it fails with NotFound("task") exactly when the id
is absent.  `Fresh` models Uuid::new_v4 freshness for workflow fan-out. -/
theorem complete_task_no_status_precondition (s : EngineState) (task_id : Uuid)
    (result : Option Payload) (now : Int) (hf : Fresh s) :
    (∀ t, get_task s.tasks task_id = some t →
      ∃ s', complete_task s task_id result now = .ok (completedTask t result now, s'))
    ∧ (get_task s.tasks task_id = none →
      complete_task s task_id result now = .error (.NotFound "task")) := by
  constructor
  · intro t hget
    have hmem : t ∈ s.tasks := List.mem_of_find?_eq_some hget
    have hupd := update_task_found s.tasks (completedTask t result now) t hmem rfl
    have hf' := fresh_after_update s (completedTask t result now)
      (clear_lease s.lease_states task_id) hf (hf t hmem)
    obtain ⟨s', hfound⟩ := complete_task_found_ok s task_id (completedTask t result now) now
      _ hupd hf'
    refine ⟨s', ?_⟩
    unfold complete_task
    rw [hget]
    exact hfound
  · intro hget
    unfold complete_task
    rw [hget]

/-- C10 witness: completing an already-Completed, still-leased task succeeds
again with the new result. -/
theorem complete_task_no_status_precondition_witness :
    ∃ s', complete_task c10s 0 (some (.value 9)) 5
      = .ok (completedTask c10task (some (.value 9)) 5, s') :=
  (complete_task_no_status_precondition c10s 0 (some (.value 9)) 5
    (by unfold Fresh c10s; decide)).1 c10task (by decide)

/-! ## Claim C4 -/
/-- C4: for every stored task of kind k with per-kind policy
{max_retries, backoff_seconds}, fail_task increments attempts and records
last_error; if retry and the incremented attempts ≤ max_retries the task
becomes Pending with started_at/completed_at cleared and
scheduled_at = now + backoff, otherwise it becomes Failed with completed_at
set (in particular, with max_retries = 0 a single fail_task(retry=true) ends
Failed with attempts = 1). -/
theorem fail_task_retry_policy (s : EngineState) (task_id : Uuid) (err : String)
    (retry : Bool) (now : Int) (hf : Fresh s) (t : Task)
    (hget : get_task s.tasks task_id = some t) :
    (∃ s', fail_task s task_id err retry now
      = .ok (fail_task_apply t err retry (policyFor s.task_policies t.kind) now, s'))
    ∧ (retry = true → t.attempts + 1 ≤ (policyFor s.task_policies t.kind).max_retries →
        fail_task_apply t err retry (policyFor s.task_policies t.kind) now
          = { t with
              attempts := t.attempts + 1, last_error := some err, status := .Pending,
              started_at := none, completed_at := none,
              scheduled_at := now
                + (((policyFor s.task_policies t.kind).backoff_seconds.getD 0 : Nat) : Int) })
    ∧ ((retry = false ∨ (policyFor s.task_policies t.kind).max_retries < t.attempts + 1) →
        fail_task_apply t err retry (policyFor s.task_policies t.kind) now
          = { t with
              attempts := t.attempts + 1, last_error := some err, status := .Failed,
              completed_at := some now }) := by
  refine ⟨?_, ?_, ?_⟩
  · have hmem : t ∈ s.tasks := List.mem_of_find?_eq_some hget
    have hupd := update_task_found s.tasks
      (fail_task_apply t err retry (policyFor s.task_policies t.kind) now) t hmem
      (by unfold fail_task_apply; split <;> rfl)
    have hlt : (fail_task_apply t err retry (policyFor s.task_policies t.kind) now).id
        < s.nextId := by
      have : (fail_task_apply t err retry (policyFor s.task_policies t.kind) now).id = t.id := by
        unfold fail_task_apply; split <;> rfl
      rw [this]
      exact hf t hmem
    have hf' := fresh_after_update s
      (fail_task_apply t err retry (policyFor s.task_policies t.kind) now)
      (clear_lease s.lease_states task_id) hf hlt
    obtain ⟨s', hfound⟩ := fail_task_found_ok s task_id
      (fail_task_apply t err retry (policyFor s.task_policies t.kind) now)
      (shouldRetry t retry (policyFor s.task_policies t.kind)) now _ hupd hf'
    refine ⟨s', ?_⟩
    unfold fail_task
    rw [hget]
    exact hfound
  · intro hretry hle
    have hcond : shouldRetry t retry (policyFor s.task_policies t.kind) = true := by
      unfold shouldRetry
      simp [hretry, hle]
    unfold fail_task_apply
    rw [if_pos hcond]
    have hback : (if (policyFor s.task_policies t.kind).backoff_seconds.getD 0 > 0 then
          (((policyFor s.task_policies t.kind).backoff_seconds.getD 0 : Nat) : Int)
        else 0)
        = (((policyFor s.task_policies t.kind).backoff_seconds.getD 0 : Nat) : Int) := by
      split
      · rfl
      · rename_i hz
        omega
    rw [hback]
  · intro hor
    have hcond : shouldRetry t retry (policyFor s.task_policies t.kind) = false := by
      unfold shouldRetry
      rcases hor with h | h
      · simp [h]
      · simp only [Bool.and_eq_false_iff, decide_eq_false_iff_not]
        right
        omega
    unfold fail_task_apply
    rw [if_neg (by simp [hcond])]

/-- C4 witness: with max_retries = 0, a single fail_task(retry=true) yields a
task whose record is the Failed branch with attempts = 1. -/
theorem fail_task_retry_policy_witness :
    (∃ s', fail_task c4s 0 "boom" true 7
      = .ok (fail_task_apply c4task "boom" true (policyFor c4s.task_policies c4task.kind) 7, s'))
    ∧ fail_task_apply c4task "boom" true (policyFor c4s.task_policies c4task.kind) 7
      = { c4task with
          attempts := c4task.attempts + 1, last_error := some "boom", status := .Failed,
          completed_at := some 7 } := by
  have h := fail_task_retry_policy c4s 0 "boom" true 7 (by unfold Fresh c4s; decide) c4task
    (by decide)
  exact ⟨h.1, h.2.2 (Or.inr (by decide))⟩

/-! ## Association-map lemmas -/
theorem find?_eraseKey_ne {α : Type} (m : List (Uuid × α)) (k k' : Uuid) (h : k' ≠ k) :
    (eraseKey m k).find? (fun p => p.1 = k') = m.find? (fun p => p.1 = k') := by
  induction m with
  | nil => rfl
  | cons a rest ih =>
      unfold eraseKey at ih ⊢
      by_cases ha : a.1 = k
      · rw [List.filter_cons_of_neg (by simp [ha])]
        rw [List.find?_cons_of_neg _ (by simp [ha, h.symm] )]
        · exact ih
      · rw [List.filter_cons_of_pos (by simp [ha])]
        by_cases hp : a.1 = k'
        · rw [List.find?_cons_of_pos _ (by simp [hp]), List.find?_cons_of_pos _ (by simp [hp])]
        · rw [List.find?_cons_of_neg _ (by simp [hp]), List.find?_cons_of_neg _ (by simp [hp])]
          exact ih

theorem lookup_mapInsert_self {α : Type} (m : List (Uuid × α)) (k : Uuid) (v : α) :
    lookup (mapInsert m k v) k = some v := by
  unfold lookup mapInsert
  rw [List.find?_cons_of_pos _ (by simp)]
  rfl

theorem lookup_mapInsert_ne {α : Type} (m : List (Uuid × α)) (k k' : Uuid) (v : α)
    (h : k' ≠ k) : lookup (mapInsert m k v) k' = lookup m k' := by
  unfold lookup mapInsert
  rw [List.find?_cons_of_neg _ (by simp [h.symm]), find?_eraseKey_ne m k k' h]

theorem lookup_eraseKey_self {α : Type} (m : List (Uuid × α)) (k : Uuid) :
    lookup (eraseKey m k) k = none := by
  unfold lookup
  rw [List.find?_eq_none.mpr]
  · rfl
  · intro p hp
    unfold eraseKey at hp
    simp only [List.mem_filter] at hp
    simpa using hp.2

theorem lookup_eraseKey_ne {α : Type} (m : List (Uuid × α)) (k k' : Uuid) (h : k' ≠ k) :
    lookup (eraseKey m k) k' = lookup m k' := by
  unfold lookup
  rw [find?_eraseKey_ne m k k' h]

/-! ## Claim C1 -/
/-- C1 (amended): lease_version increments by exactly 1 on every successful
renew_task_lease (so it strictly increases while a lease state persists), and
a successful lease_next_task installs version prior+1 only when a lease state
for the task is still present — when none is present (complete_task/fail_task
clear it), the new lease restarts at version 1. -/
theorem lease_version_semantics (s : EngineState) (task_id worker_id lease_token : Uuid)
    (extend_by now : Int) (tenant_id wrk : Uuid) (lease_ttl : Int) (freshToken : Uuid) :
    (∀ lease s', renew_task_lease s task_id worker_id lease_token extend_by now
        = (.ok lease, s') →
      ∃ st, lookup s.lease_states task_id = some st
        ∧ lease.lease_version = st.version + 1
        ∧ lookup s'.lease_states task_id
            = some { st with
                version := st.version + 1
                lease_expires_at := st.lease_expires_at + extend_by })
    ∧ (∀ lease s', lease_next_task s tenant_id wrk lease_ttl now freshToken
        = .ok (some lease, s') →
      lease.lease_version
        = match lookup s.lease_states lease.task.id with
          | some st => st.version + 1
          | none => 1) := by
  constructor
  · intro lease s' h
    unfold renew_task_lease at h
    split at h
    · simp at h
    · rename_i st hlk
      split at h
      · simp at h
      · split at h
        · simp at h
        · split at h
          · simp at h
          · split at h
            · simp at h
            · rename_i task hget
              simp only [Prod.mk.injEq, Except.ok.injEq] at h
              obtain ⟨h1, h2⟩ := h
              refine ⟨st, hlk, ?_, ?_⟩
              · rw [← h1]
              · rw [← h2]
                exact lookup_mapInsert_self s.lease_states task_id _
  · intro lease s' h
    unfold lease_next_task at h
    split at h
    · simp at h
    · rename_i task0 last_kind' hsel
      unfold lease_found at h
      split at h
      · simp at h
      · rename_i tasks' hupd
        simp only [Except.ok.injEq, Prod.mk.injEq, Option.some.injEq] at h
        obtain ⟨h1, h2⟩ := h
        rw [← h1]
        rfl

/-- C1 counterexample: lease (version 1), fail_task(retry=true), re-lease —
the new lease carries version 1, not a version strictly greater than the
previously observed version. -/
theorem lease_version_reset_cex :
    c1ok1 = true ∧ c1ok2 = true ∧ c1ok3 = true ∧ c1v1 = 1 ∧ c1v2 = 1
      ∧ ¬ c1v2 > c1v1 := by
  decide

/-- C1 witness: the amended renewal property applied to the concrete lease of
the trace (version 1 → 2). -/
theorem lease_version_semantics_witness :
    ∃ st, lookup c1s1.lease_states 0 = some st
      ∧ c1renewLease.lease_version = st.version + 1
      ∧ lookup c1renew.2.lease_states 0
          = some { st with
              version := st.version + 1
              lease_expires_at := st.lease_expires_at + 60 } :=
  (lease_version_semantics c1s1 0 100 7 60 50 1 100 300 8).1 c1renewLease c1renew.2 (by decide)

/-! ## Claim C5 -/
theorem fairLoop_fallback (last : Option String) (l : List Task) :
    ∀ a : Task, fairLoop last (some a) l
      = (l.find? fun t => decide (some t.kind ≠ last)).or (some a) := by
  induction l with
  | nil => intro a; rfl
  | cons t rest ih =>
      intro a
      by_cases hp : some t.kind ≠ last
      · rw [List.find?_cons_of_pos _ (by simpa using hp)]
        simp only [fairLoop, Option.isNone_some, Bool.false_eq_true, if_false, if_pos hp]
        rfl
      · rw [List.find?_cons_of_neg _ (by simpa using hp)]
        simp only [fairLoop, Option.isNone_some, Bool.false_eq_true, if_false, if_neg hp]
        exact ih a

theorem fairLoop_none_eq (last : Option String) (l : List Task) :
    fairLoop last none l
      = (l.find? fun t => decide (some t.kind ≠ last)).or l.head? := by
  cases l with
  | nil => rfl
  | cons t rest =>
      by_cases hp : some t.kind ≠ last
      · rw [List.find?_cons_of_pos _ (by simpa using hp)]
        simp only [fairLoop, Option.isNone_none, if_true, if_pos hp]
        rfl
      · rw [List.find?_cons_of_neg _ (by simpa using hp)]
        simp only [fairLoop, Option.isNone_none, if_true, if_neg hp]
        rw [fairLoop_fallback last rest t]
        rfl

theorem sorted_find?_min (l : List Task) (hs : List.Pairwise schedLE l) (p : Task → Bool)
    (t : Task) (hf : l.find? p = some t) :
    ∀ u ∈ l, p u = true → t.scheduled_at ≤ u.scheduled_at := by
  induction l with
  | nil => simp at hf
  | cons a rest ih =>
      obtain ⟨hhead, htail⟩ := List.pairwise_cons.mp hs
      by_cases hpa : p a = true
      · rw [List.find?_cons_of_pos _ hpa] at hf
        obtain rfl : a = t := by simpa using hf
        intro u hu hpu
        rcases List.mem_cons.mp hu with rfl | hu
        · exact le_refl _
        · exact hhead u hu
      · rw [List.find?_cons_of_neg _ (by simpa using hpa)] at hf
        intro u hu hpu
        rcases List.mem_cons.mp hu with rfl | hu
        · exact absurd hpu hpa
        · exact ih htail hf u hu hpu

theorem sorted_head_min (l : List Task) (hs : List.Pairwise schedLE l) (t : Task)
    (hh : l.head? = some t) : ∀ u ∈ l, t.scheduled_at ≤ u.scheduled_at := by
  cases l with
  | nil => simp at hh
  | cons a rest =>
      obtain rfl : a = t := by simpa using hh
      intro u hu
      rcases List.mem_cons.mp hu with rfl | hu
      · exact le_refl _
      · exact (List.pairwise_cons.mp hs).1 u hu

/-- C5: under FairnessByKind, for a non-empty pending list the selected task
is an earliest-by-scheduled_at task whose kind differs from the last
dispatched kind; if every pending task has the last kind, an earliest task
overall is selected; the last-kind cursor is set to the selected kind exactly
when a task is dispatched and is unchanged when no task is selected. -/
theorem fairness_by_kind_selection (policies : List (String × TaskPolicy))
    (last_kind : Option String) (pending : List Task) :
    (pending ≠ [] →
      ∃ t, select_task .FairnessByKind policies last_kind pending = (some t, some t.kind)
        ∧ t ∈ pending
        ∧ ((some t.kind ≠ last_kind
            ∧ ∀ u ∈ pending, some u.kind ≠ last_kind → t.scheduled_at ≤ u.scheduled_at)
          ∨ ((∀ u ∈ pending, some u.kind = last_kind)
            ∧ ∀ u ∈ pending, t.scheduled_at ≤ u.scheduled_at)))
    ∧ select_task .FairnessByKind policies last_kind [] = (none, last_kind) := by
  constructor
  · intro hne
    have hperm : List.Perm (pending.insertionSort schedLE) pending :=
      List.perm_insertionSort _ _
    have hsort : List.Pairwise schedLE (pending.insertionSort schedLE) :=
      List.sorted_insertionSort schedLE pending
    have hempty : pending.isEmpty = false := by
      cases pending with
      | nil => exact absurd rfl hne
      | cons a rest => rfl
    cases hfind : (pending.insertionSort schedLE).find?
        (fun t => decide (some t.kind ≠ last_kind)) with
    | some t =>
        refine ⟨t, ?_, ?_, Or.inl ⟨?_, ?_⟩⟩
        · unfold select_task
          rw [hempty]
          simp only [Bool.false_eq_true, if_false]
          rw [fairLoop_none_eq, hfind]
          rfl
        · exact hperm.mem_iff.mp (List.mem_of_find?_eq_some hfind)
        · simpa using List.find?_some hfind
        · intro u hu hukind
          exact sorted_find?_min _ hsort _ t hfind u (hperm.mem_iff.mpr hu)
            (by simpa using hukind)
    | none =>
        have hsne : pending.insertionSort schedLE ≠ [] := by
          intro hnil
          have := hperm.length_eq
          rw [hnil] at this
          cases pending with
          | nil => exact hne rfl
          | cons a rest => simp at this
        obtain ⟨t, hhead⟩ : ∃ t, (pending.insertionSort schedLE).head? = some t := by
          cases hcs : pending.insertionSort schedLE with
          | nil => exact absurd hcs hsne
          | cons a rest => exact ⟨a, rfl⟩
        have hall : ∀ u ∈ pending, some u.kind = last_kind := by
          intro u hu
          have := List.find?_eq_none.mp hfind u (hperm.mem_iff.mpr hu)
          simpa using this
        refine ⟨t, ?_, ?_, Or.inr ⟨hall, ?_⟩⟩
        · unfold select_task
          rw [hempty]
          simp only [Bool.false_eq_true, if_false]
          rw [fairLoop_none_eq, hfind, Option.none_or, hhead]
          rfl
        · exact hperm.mem_iff.mp (List.mem_of_mem_head? hhead)
        · intro u hu
          exact sorted_head_min _ hsort t hhead u (hperm.mem_iff.mpr hu)
  · rfl

/-- C5 witness: the theorem at the concrete two-task pending list. -/
theorem fairness_by_kind_selection_witness :
    ∃ t, select_task .FairnessByKind [] (some "a") [c5taskA, c5taskB] = (some t, some t.kind)
      ∧ t ∈ [c5taskA, c5taskB]
      ∧ ((some t.kind ≠ some "a"
          ∧ ∀ u ∈ [c5taskA, c5taskB], some u.kind ≠ some "a"
              → t.scheduled_at ≤ u.scheduled_at)
        ∨ ((∀ u ∈ [c5taskA, c5taskB], some u.kind = some "a")
          ∧ ∀ u ∈ [c5taskA, c5taskB], t.scheduled_at ≤ u.scheduled_at)) :=
  (fairness_by_kind_selection [] (some "a") [c5taskA, c5taskB]).1 (by decide)

theorem finalizeRun_waiting (st : WorkflowRunState) (now : Int) :
    (finalizeRun st now).waiting_steps = st.waiting_steps := by
  unfold finalizeRun
  split <;> rfl

theorem finalizeRun_inflight (st : WorkflowRunState) (now : Int) :
    (finalizeRun st now).inflight_steps = st.inflight_steps := by
  unfold finalizeRun
  split <;> rfl

theorem finalizeRun_failed (st : WorkflowRunState) (now : Int) :
    (finalizeRun st now).failed_kinds = st.failed_kinds := by
  unfold finalizeRun
  split <;> rfl

theorem mark_terminal (st : WorkflowRunState) (step_id : Uuid) (success : Bool) (now : Int)
    (hw : (mark_step_outcome st step_id success now).waiting_steps = [])
    (hi : (mark_step_outcome st step_id success now).inflight_steps = []) :
    (mark_step_outcome st step_id success now).run.completed_at = some now
    ∧ (mark_step_outcome st step_id success now).run.status
        = (if (mark_step_outcome st step_id success now).failed_kinds.isEmpty
           then WorkflowRunStatus.Completed else WorkflowRunStatus.Failed) := by
  unfold mark_step_outcome at hw hi ⊢
  rw [finalizeRun_waiting] at hw
  rw [finalizeRun_inflight] at hi
  have hcond : ((markProgress (markKinds st step_id success) step_id now).waiting_steps.isEmpty
      && (markProgress (markKinds st step_id success) step_id now).inflight_steps.isEmpty)
      = true := by
    rw [hw, hi]
    rfl
  unfold finalizeRun
  rw [if_pos hcond]
  exact ⟨rfl, rfl⟩

theorem pop_run (st : WorkflowRunState) : (pop_ready_steps st).2.run = st.run := rfl

theorem pop_empty (st : WorkflowRunState) (hw : st.waiting_steps = []) :
    (pop_ready_steps st).1 = [] := by
  unfold pop_ready_steps
  rw [hw]
  rfl

theorem runFinished_false (s : WorkflowRunStatus) (h : runFinished s = false) :
    s = WorkflowRunStatus.Running ∨ s = WorkflowRunStatus.Pending := by
  cases s
  · exact Or.inr rfl
  · exact Or.inl rfl
  · simp [runFinished] at h
  · simp [runFinished] at h
  · simp [runFinished] at h

theorem schedule_task_runs_eq (s : EngineState) (request : TaskRequest) (now : Int)
    (task : Task) (s' : EngineState) (h : schedule_task s request now = .ok (task, s')) :
    s'.workflow_runs = s.workflow_runs := by
  unfold schedule_task at h
  split at h
  · simp at h
  · simp only [Except.ok.injEq, Prod.mk.injEq] at h
    rw [← h.2]

theorem scheduleReadySteps_runs_eq (run : WorkflowRun) (input : Payload) (now : Int)
    (steps : List WorkflowStep) :
    ∀ (s : EngineState) (tasks : List Task) (s' : EngineState),
    scheduleReadySteps run input now s steps = .ok (tasks, s') →
    s'.workflow_runs = s.workflow_runs := by
  induction steps with
  | nil =>
      intro s tasks s' h
      simp only [scheduleReadySteps, Except.ok.injEq, Prod.mk.injEq] at h
      rw [← h.2]
  | cons step rest ih =>
      intro s tasks s' h
      rw [scheduleReadySteps] at h
      split at h
      · simp at h
      · rename_i task s1 hstep
        split at h
        · simp at h
        · rename_i tasks2 s2 hrest
          simp only [Except.ok.injEq, Prod.mk.injEq] at h
          rw [← h.2]
          exact (ih s1 tasks2 s2 hrest).trans (schedule_task_runs_eq s _ now task s1 hstep)

/-- C7: whenever a step outcome is recorded for an indexed run and both
waiting and inflight become empty, the marked run has completed_at = now and
status Completed iff failed_kinds is empty (Failed otherwise), and the run is
removed from the active runs index; moreover handle_task_outcome preserves
the invariant that every indexed run is non-terminal, so every terminated
run is absent from the index. -/
theorem workflow_run_termination (s : EngineState) (task : Task) (success : Bool)
    (now : Int) :
    (∀ ctx st, workflow_context task = some ctx →
      lookup s.workflow_runs ctx.run_id = some st →
      (mark_step_outcome st ctx.step_id success now).waiting_steps = [] →
      (mark_step_outcome st ctx.step_id success now).inflight_steps = [] →
      ∃ s', handle_task_outcome s task success now = .ok s'
        ∧ lookup s'.workflow_runs ctx.run_id = none
        ∧ (mark_step_outcome st ctx.step_id success now).run.completed_at = some now
        ∧ (mark_step_outcome st ctx.step_id success now).run.status
            = (if (mark_step_outcome st ctx.step_id success now).failed_kinds.isEmpty
               then WorkflowRunStatus.Completed else WorkflowRunStatus.Failed))
    ∧ (∀ s', RunsClean s.workflow_runs →
        handle_task_outcome s task success now = .ok s' → RunsClean s'.workflow_runs) := by
  constructor
  · intro ctx st hctx hrun hw hi
    have hterm := mark_terminal st ctx.step_id success now hw hi
    have hfin : runFinished (mark_step_outcome st ctx.step_id success now).run.status
        = true := by
      rw [hterm.2]
      split
      · rfl
      · rfl
    have hpop1 := pop_empty (mark_step_outcome st ctx.step_id success now) hw
    refine ⟨{ s with
        workflow_runs := eraseKey (mapInsert s.workflow_runs ctx.run_id
          (pop_ready_steps (mark_step_outcome st ctx.step_id success now)).2) ctx.run_id },
      ?_, ?_, hterm.1, hterm.2⟩
    · unfold handle_task_outcome
      simp only [hctx, hrun]
      unfold handleOutcomeCore
      rw [hpop1]
      simp only [scheduleReadySteps]
      rw [pop_run, hfin]
      rfl
    · exact lookup_eraseKey_self _ _
  · intro s' hclean hok
    unfold handle_task_outcome at hok
    split at hok
    · simp only [Except.ok.injEq] at hok
      rw [← hok]
      exact hclean
    · rename_i ctx hctx
      split at hok
      · simp only [Except.ok.injEq] at hok
        rw [← hok]
        exact hclean
      · rename_i st hrun
        unfold handleOutcomeCore at hok
        split at hok
        · simp at hok
        · rename_i tasks s2 hsched
          have hruns2 := scheduleReadySteps_runs_eq _ _ now _ _ tasks s2 hsched
          simp only [Except.ok.injEq] at hok
          rw [← hok]
          by_cases hfin : runFinished
              (pop_ready_steps (mark_step_outcome st ctx.step_id success now)).2.run.status
              = true
          · rw [if_pos hfin]
            intro id st' hlk
            by_cases hid : id = ctx.run_id
            · rw [hid] at hlk
              rw [lookup_eraseKey_self] at hlk
              exact absurd hlk (by simp)
            · rw [lookup_eraseKey_ne _ _ _ hid, hruns2,
                lookup_mapInsert_ne _ _ _ _ hid] at hlk
              exact hclean id st' hlk
          · rw [if_neg hfin]
            intro id st' hlk
            by_cases hid : id = ctx.run_id
            · rw [hid, hruns2, lookup_mapInsert_self] at hlk
              obtain rfl : (pop_ready_steps
                  (mark_step_outcome st ctx.step_id success now)).2 = st' := by
                simpa using hlk
              rw [pop_run]
              rw [pop_run] at hfin
              exact runFinished_false _ (by simpa using hfin)
            · rw [hruns2, lookup_mapInsert_ne _ _ _ _ hid] at hlk
              exact hclean id st' hlk

/-- C7 witness: completing the last inflight step terminates the run, stamps
completed_at, and removes the run from the index. -/
theorem workflow_run_termination_witness :
    ∃ s', handle_task_outcome c7s c7task true 4 = .ok s'
      ∧ lookup s'.workflow_runs 2 = none
      ∧ (mark_step_outcome c7state 5 true 4).run.completed_at = some 4
      ∧ (mark_step_outcome c7state 5 true 4).run.status
          = (if (mark_step_outcome c7state 5 true 4).failed_kinds.isEmpty
             then WorkflowRunStatus.Completed else WorkflowRunStatus.Failed) :=
  (workflow_run_termination c7s c7task true 4).1 ⟨3, 2, 5⟩ c7state (by decide) (by decide)
    (by decide) (by decide)

end Orch

namespace Prov

theorem lookupStr_mapInsert_self {α : Type} (m : List (String × α)) (k : String) (v : α) :
    lookupStr (mapInsertStr m k v) k = some v := by
  unfold lookupStr mapInsertStr
  rw [List.find?_cons_of_pos _ (by simp)]
  rfl

/-! ## Claim C9 -/
/-- C9: for every request with idempotency_key K, a second call to
create_tenant_with_options on the same service instance with the same K
returns the identical bootstrap bundle as the first successful call (same
tenant, same default_api_key, same bootstrap_scripts) and leaves the state
untouched — in particular no new tenant is created. -/
theorem create_tenant_idempotent (s0 : ProvState) (req1 req2 : TenantCreateRequest)
    (K : String) (f1 k1 : Uuid) (sec1 : String) (hash : String → String) (now1 : Int)
    (f2 k2 : Uuid) (sec2 : String) (now2 : Int)
    (hk1 : req1.idempotency_key = some K) (hk2 : req2.idempotency_key = some K)
    (B : TenantBootstrap) (s1 : ProvState)
    (h1 : create_tenant_with_options s0 req1 f1 k1 sec1 hash now1 = .ok (B, s1)) :
    create_tenant_with_options s1 req2 f2 k2 sec2 hash now2 = .ok (B, s1) := by
  have hlk : lookupStr s1.tenant_idempotency K = some B := by
    unfold create_tenant_with_options at h1
    simp only [hk1] at h1
    split at h1
    · rename_i existing hcache
      simp only [Except.ok.injEq, Prod.mk.injEq] at h1
      obtain ⟨hB, hs⟩ := h1
      rw [← hs, hcache, hB]
    · rename_i hmiss
      unfold create_tenant_fresh at h1
      split at h1
      · simp at h1
      · split at h1
        · simp at h1
        · rename_i tenants' hins
          split at h1
          · simp at h1
          · rename_i dk keys' hkey
            unfold finishTenantBundle at h1
            simp only [hk1] at h1
            simp only [Except.ok.injEq, Prod.mk.injEq] at h1
            obtain ⟨hB, hs⟩ := h1
            rw [← hs, ← hB]
            exact lookupStr_mapInsert_self _ _ _
  unfold create_tenant_with_options
  simp only [hk2, hlk]

/-- C9 witness: the concrete retry with key "t1" returns the first call's
bundle and leaves the state unchanged. -/
theorem create_tenant_idempotent_witness :
    create_tenant_with_options c9s1 c9req 20 21 "sec2" (fun s => s) 5 = .ok (c9B, c9s1) :=
  create_tenant_idempotent c9s0 c9req c9req "t1" 10 11 "sec" (fun s => s) 0 20 21 "sec2" 5
    rfl rfl c9B c9s1 (by decide)

/-! ## Claim C8 lemmas -/
/-- Splitting the inner sweep fold into its store and output components. -/
theorem sweep_pass_fold (th : Int) (S : List Agent) :
    ∀ store out, S.foldl (sweepStep th) (store, out)
      = (S.foldl (fun st a =>
            if needsSuspend th a then updateAgent st (suspendAgent a) else st) store,
         out ++ (S.filter (needsSuspend th)).map suspendAgent) := by
  induction S with
  | nil => intro store out; simp
  | cons a S' ih =>
      intro store out
      by_cases h : needsSuspend th a = true
      · simp only [List.foldl_cons, sweepStep, if_pos h, List.filter_cons_of_pos h, ih,
          List.map_cons]
        simp
      · simp only [List.foldl_cons, sweepStep, if_neg h, ih,
          List.filter_cons_of_neg (by simpa using h)]

theorem updateAgent_ids (st : List Agent) (x : Agent) :
    (updateAgent st x).map (fun u => u.id) = st.map (fun u => u.id) := by
  unfold updateAgent
  rw [List.map_map]
  refine List.map_congr_left ?_
  intro u hu
  by_cases hc : u.id = x.id
  · simp [Function.comp, hc]
  · simp [Function.comp, hc]

theorem mem_updateAgent (st : List Agent) (x b : Agent) (hb : b ∈ st) (hne : b.id ≠ x.id) :
    b ∈ updateAgent st x := by
  unfold updateAgent
  have hbb : (fun u => if u.id = x.id then x else u) b = b := by
    show (if b.id = x.id then x else b) = b
    rw [if_neg hne]
  rw [← hbb]
  exact List.mem_map_of_mem _ hb

theorem suspendAgent_not_needed (th : Int) (a : Agent) :
    needsSuspend th (suspendAgent a) = false := by
  unfold needsSuspend suspendAgent
  simp

/-- Core update-fold characterization: folding the per-agent updates over a
duplicate-free store replaces exactly the listed agents that need
suspension. -/
theorem sweepUpd_fold_map (th : Int) :
    ∀ (S store : List Agent),
    (∀ a ∈ S, a ∈ store) →
    (S.map (fun a => a.id)).Nodup →
    (store.map (fun a => a.id)).Nodup →
    S.foldl (fun st a =>
        if needsSuspend th a then updateAgent st (suspendAgent a) else st) store
      = store.map (fun u => if u ∈ S ∧ needsSuspend th u = true then suspendAgent u else u) := by
  intro S
  induction S with
  | nil =>
      intro store _ _ _
      simp
  | cons a S' ih =>
      intro store hmem hSn hstn
      rw [List.map_cons] at hSn
      have haid : a.id ∉ S'.map (fun a => a.id) := (List.nodup_cons.mp hSn).1
      have hSn' : (S'.map (fun a => a.id)).Nodup := (List.nodup_cons.mp hSn).2
      have hainst : a ∈ store := hmem a (List.mem_cons_self a S')
      have hinj := List.inj_on_of_nodup_map hstn
      by_cases hc : needsSuspend th a = true
      · have hids' : (updateAgent store (suspendAgent a)).map (fun u => u.id)
            = store.map (fun u => u.id) := updateAgent_ids store (suspendAgent a)
        have hmem' : ∀ b ∈ S', b ∈ updateAgent store (suspendAgent a) := by
          intro b hb
          have hbid : b.id ≠ a.id := by
            intro hbad
            exact haid (by rw [← hbad]; exact List.mem_map_of_mem _ hb)
          exact mem_updateAgent store (suspendAgent a) b (hmem b (List.mem_cons_of_mem a hb))
            hbid
        rw [List.foldl_cons, if_pos hc, ih (updateAgent store (suspendAgent a)) hmem' hSn'
          (by rw [hids']; exact hstn)]
        unfold updateAgent
        rw [List.map_map]
        refine List.map_congr_left ?_
        intro u hu
        simp only [Function.comp]
        have hsid : (suspendAgent a).id = a.id := rfl
        rw [hsid]
        by_cases hid : u.id = a.id
        · have hua : u = a := hinj hu hainst hid
          subst hua
          rw [if_pos rfl]
          have hnot : suspendAgent u ∉ S' := by
            intro hin
            exact haid (by
              have hi : (suspendAgent u).id = u.id := rfl
              rw [← hi]
              exact List.mem_map_of_mem _ hin)
          rw [if_neg (fun hcontra => hnot hcontra.1),
            if_pos ⟨List.mem_cons_self u S', hc⟩]
        · rw [if_neg hid]
          have hmemiff : u ∈ a :: S' ↔ u ∈ S' := by
            constructor
            · intro hmm
              rcases List.mem_cons.mp hmm with rfl | hmm
              · exact absurd rfl hid
              · exact hmm
            · exact List.mem_cons_of_mem a
          by_cases hcu : u ∈ S' ∧ needsSuspend th u = true
          · rw [if_pos hcu, if_pos ⟨hmemiff.mpr hcu.1, hcu.2⟩]
          · rw [if_neg hcu, if_neg (fun hcontra => hcu ⟨hmemiff.mp hcontra.1, hcontra.2⟩)]
      · rw [List.foldl_cons, if_neg hc, ih store (fun b hb => hmem b (List.mem_cons_of_mem a hb))
          hSn' hstn]
        refine List.map_congr_left ?_
        intro u hu
        by_cases hua : u = a
        · subst hua
          rw [if_neg (fun hcontra => hc hcontra.2), if_neg (fun hcontra => hc hcontra.2)]
        · have hmemiff : u ∈ a :: S' ↔ u ∈ S' := by
            constructor
            · intro hmm
              rcases List.mem_cons.mp hmm with rfl | hmm
              · exact absurd rfl hua
              · exact hmm
            · exact List.mem_cons_of_mem a
          by_cases hcu : u ∈ S' ∧ needsSuspend th u = true
          · rw [if_pos hcu, if_pos ⟨hmemiff.mpr hcu.1, hcu.2⟩]
          · rw [if_neg hcu, if_neg (fun hcontra => hcu ⟨hmemiff.mp hcontra.1, hcontra.2⟩)]

theorem mem_list_agents (store : List Agent) (tid : Uuid) (u : Agent) :
    u ∈ list_agents store tid ↔ u ∈ store ∧ u.tenant_id = tid := by
  unfold list_agents
  rw [(List.perm_insertionSort hostLE _).mem_iff, List.mem_filter]
  simp

theorem list_agents_ids_nodup (store : List Agent) (tid : Uuid)
    (h : (store.map (fun a => a.id)).Nodup) :
    ((list_agents store tid).map (fun a => a.id)).Nodup := by
  unfold list_agents
  refine ((List.perm_insertionSort hostLE _).map (fun a => a.id)).nodup_iff.mpr ?_
  exact List.Nodup.sublist (List.Sublist.map (fun a => a.id) (List.filter_sublist store)) h

/-- Full sweepTenant characterization over a duplicate-free store. -/
theorem sweepTenant_eq (th : Int) (store out : List Agent) (t : Tenant)
    (hstn : (store.map (fun a => a.id)).Nodup) :
    sweepTenant th (store, out) t
      = (store.map (fun u => if u.tenant_id = t.id ∧ needsSuspend th u = true
            then suspendAgent u else u),
         out ++ ((list_agents store t.id).filter (needsSuspend th)).map suspendAgent) := by
  unfold sweepTenant
  rw [sweep_pass_fold]
  have hmem : ∀ a ∈ list_agents store t.id, a ∈ store :=
    fun a ha => ((mem_list_agents store t.id a).mp ha).1
  rw [sweepUpd_fold_map th (list_agents store t.id) store hmem
    (list_agents_ids_nodup store t.id hstn) hstn]
  have hmap : store.map
        (fun u => if u ∈ list_agents store t.id ∧ needsSuspend th u = true
          then suspendAgent u else u)
      = store.map
        (fun u => if u.tenant_id = t.id ∧ needsSuspend th u = true
          then suspendAgent u else u) := by
    refine List.map_congr_left ?_
    intro u hu
    by_cases hc : u.tenant_id = t.id ∧ needsSuspend th u = true
    · rw [if_pos ⟨(mem_list_agents store t.id u).mpr ⟨hu, hc.1⟩, hc.2⟩, if_pos hc]
    · rw [if_neg (fun hcontra => hc ⟨((mem_list_agents store t.id u).mp hcontra.1).2,
        hcontra.2⟩), if_neg hc]
  rw [hmap]

theorem sweptAgent_id (th : Int) (p : List Uuid) (u : Agent) :
    (sweptAgent th p u).id = u.id := by
  unfold sweptAgent
  split <;> rfl

theorem sweptAgent_tenant (th : Int) (p : List Uuid) (u : Agent) :
    (sweptAgent th p u).tenant_id = u.tenant_id := by
  unfold sweptAgent
  split <;> rfl

theorem sweptAgent_nil (th : Int) (u : Agent) :
    sweptAgent th [] u = u := by
  unfold sweptAgent
  rw [if_neg (fun h => List.not_mem_nil _ h.1)]

theorem swept_map_ids (th : Int) (p : List Uuid) (agents : List Agent) :
    ((agents.map (sweptAgent th p)).map (fun a => a.id)) = agents.map (fun a => a.id) := by
  rw [List.map_map]
  refine List.map_congr_left ?_
  intro u hu
  simp only [Function.comp]
  exact sweptAgent_id th p u

/-- Listing a tenant's agents is unaffected by the updates made for other
tenants' sweeps. -/
theorem list_agents_swept (th : Int) (p : List Uuid) (agents : List Agent) (tid : Uuid)
    (htid : tid ∉ p) :
    list_agents (agents.map (sweptAgent th p)) tid = list_agents agents tid := by
  unfold list_agents
  congr 1
  rw [List.filter_map]
  have hfc : agents.filter ((fun a => decide (a.tenant_id = tid)) ∘ sweptAgent th p)
      = agents.filter (fun a => decide (a.tenant_id = tid)) := by
    refine List.filter_congr ?_
    intro u hu
    simp only [Function.comp]
    rw [sweptAgent_tenant]
  rw [hfc]
  have hid : ∀ a ∈ agents.filter (fun a => decide (a.tenant_id = tid)),
      sweptAgent th p a = a := by
    intro a ha
    have hta : a.tenant_id = tid := by simpa using (List.mem_filter.mp ha).2
    unfold sweptAgent
    rw [if_neg (fun h => htid (hta ▸ h.1))]
  rw [List.map_congr_left hid, List.map_id']

/-- Outer fold invariant: after sweeping the tenants `ts`, every agent of an
already-listed tenant that needed suspension has been suspended, and the
output has accumulated each tenant's suspended listing. -/
theorem sweep_outer (th : Int) :
    ∀ (ts : List Tenant) (processed : List Uuid) (agents out : List Agent),
    (agents.map (fun a => a.id)).Nodup →
    (∀ t ∈ ts, t.id ∉ processed) →
    (ts.map (fun t => t.id)).Nodup →
    ts.foldl (sweepTenant th) (agents.map (sweptAgent th processed), out)
      = (agents.map (sweptAgent th (processed ++ ts.map (fun t => t.id))),
         out ++ ts.flatMap (fun t =>
           ((list_agents agents t.id).filter (needsSuspend th)).map suspendAgent)) := by
  intro ts
  induction ts with
  | nil =>
      intro processed agents out _ _ _
      simp
  | cons t rest ih =>
      intro processed agents out hA hP hT
      rw [List.map_cons] at hT
      have htid : t.id ∉ processed := hP t (List.mem_cons_self t rest)
      have htrest : t.id ∉ rest.map (fun t => t.id) := (List.nodup_cons.mp hT).1
      have hTrest : (rest.map (fun t => t.id)).Nodup := (List.nodup_cons.mp hT).2
      rw [List.foldl_cons]
      rw [sweepTenant_eq th _ out t (by rw [swept_map_ids]; exact hA)]
      rw [list_agents_swept th processed agents t.id htid]
      have hstore : (agents.map (sweptAgent th processed)).map
            (fun u => if u.tenant_id = t.id ∧ needsSuspend th u = true
              then suspendAgent u else u)
          = agents.map (sweptAgent th (processed ++ [t.id])) := by
        rw [List.map_map]
        refine List.map_congr_left ?_
        intro u hu
        simp only [Function.comp]
        unfold sweptAgent
        by_cases hc1 : u.tenant_id ∈ processed ∧ needsSuspend th u = true
        · rw [if_pos hc1]
          rw [if_neg (fun h => by
            have hf := suspendAgent_not_needed th u
            rw [h.2] at hf
            exact Bool.noConfusion hf)]
          rw [if_pos ⟨List.mem_append_left _ hc1.1, hc1.2⟩]
        · rw [if_neg hc1]
          by_cases hc2 : u.tenant_id = t.id ∧ needsSuspend th u = true
          · rw [if_pos hc2,
              if_pos ⟨List.mem_append_right _ (List.mem_singleton.mpr hc2.1), hc2.2⟩]
          · rw [if_neg hc2]
            rw [if_neg (fun h => by
              rcases List.mem_append.mp h.1 with hmm | hmm
              · exact hc1 ⟨hmm, h.2⟩
              · exact hc2 ⟨List.mem_singleton.mp hmm, h.2⟩)]
      rw [hstore]
      have hP' : ∀ t' ∈ rest, t'.id ∉ processed ++ [t.id] := by
        intro t' ht' hbad
        rcases List.mem_append.mp hbad with hmm | hmm
        · exact hP t' (List.mem_cons_of_mem t ht') hmm
        · exact htrest (List.mem_singleton.mp hmm ▸ List.mem_map_of_mem (fun t => t.id) ht')
      rw [ih (processed ++ [t.id]) agents
        (out ++ ((list_agents agents t.id).filter (needsSuspend th)).map suspendAgent)
        hA hP' hTrest]
      simp [List.append_assoc, List.flatMap_cons]

/-- Looking an agent up by id in an id-preserving image of a duplicate-free
store finds the image of that agent. -/
theorem find?_map_by_id (f : Agent → Agent) (hid : ∀ u, (f u).id = u.id) :
    ∀ (agents : List Agent), (agents.map (fun a => a.id)).Nodup →
    ∀ a ∈ agents, (agents.map f).find? (fun u => decide (u.id = a.id)) = some (f a) := by
  intro agents
  induction agents with
  | nil =>
      intro _ a ha
      exact absurd ha (List.not_mem_nil a)
  | cons u rest ih =>
      intro hnd a ha
      rw [List.map_cons] at hnd
      have hu0 : u.id ∉ rest.map (fun a => a.id) := (List.nodup_cons.mp hnd).1
      have hrestnd : (rest.map (fun a => a.id)).Nodup := (List.nodup_cons.mp hnd).2
      rw [List.map_cons]
      by_cases hid2 : u.id = a.id
      · have hau : a = u := by
          rcases List.mem_cons.mp ha with rfl | hrest
          · rfl
          · exact absurd (hid2 ▸ List.mem_map_of_mem (fun a => a.id) hrest) hu0
        subst hau
        rw [List.find?_cons_of_pos _ (by simp [hid a])]
      · rw [List.find?_cons_of_neg _ (by simp [hid u, hid2])]
        have harest : a ∈ rest := by
          rcases List.mem_cons.mp ha with rfl | h
          · exact absurd rfl hid2
          · exact h
        exact ih hrestnd a harest

theorem mem_list_tenants (tenants : List Tenant) (t : Tenant) :
    t ∈ list_tenants tenants ↔ t ∈ tenants := by
  unfold list_tenants
  exact (List.perm_insertionSort nameLE tenants).mem_iff

/-- The sweep in closed form: the resulting store is the pointwise image. -/
theorem sweep_closed_form (tenants : List Tenant) (agents : List Agent)
    (heartbeat_timeout now : Int)
    (hA : (agents.map (fun a => a.id)).Nodup)
    (hT : (tenants.map (fun t => t.id)).Nodup) :
    sweep_inactive_agents tenants agents heartbeat_timeout now
      = (agents.map (sweptAgent (now - heartbeat_timeout)
            ((list_tenants tenants).map (fun t => t.id))),
         (list_tenants tenants).flatMap (fun t =>
           ((list_agents agents t.id).filter (needsSuspend (now - heartbeat_timeout))).map
             suspendAgent)) := by
  unfold sweep_inactive_agents
  have hinit : agents.map (sweptAgent (now - heartbeat_timeout) ([] : List Uuid)) = agents :=
    (List.map_congr_left (fun u _ => sweptAgent_nil (now - heartbeat_timeout) u)).trans
      (List.map_id' agents)
  have hTs : ((list_tenants tenants).map (fun t => t.id)).Nodup := by
    exact ((List.perm_insertionSort nameLE tenants).map (fun t => t.id)).nodup_iff.mpr hT
  conv_lhs => rw [show (agents, ([] : List Agent))
    = (agents.map (sweptAgent (now - heartbeat_timeout) ([] : List Uuid)), ([] : List Agent))
    from by rw [hinit]]
  rw [sweep_outer (now - heartbeat_timeout) (list_tenants tenants) [] agents []
    hA (fun t _ => List.not_mem_nil _) hTs]
  rfl

/-- C8: over a store with distinct agent ids and distinct tenant ids in
which every agent belongs to some tenant, sweep_inactive_agents returns
exactly the agents whose last_seen is absent or strictly older than
now - heartbeat_timeout and whose status was not already Suspended (each
returned in suspended form), and in the resulting store each such agent has
been transitioned to Suspended while every other agent is unchanged. -/
theorem sweep_inactive_agents_stale_set (tenants : List Tenant) (agents : List Agent)
    (heartbeat_timeout now : Int)
    (hA : (agents.map (fun a => a.id)).Nodup)
    (hT : (tenants.map (fun t => t.id)).Nodup)
    (hcover : ∀ a ∈ agents, ∃ t ∈ tenants, t.id = a.tenant_id) :
    (∀ b, b ∈ (sweep_inactive_agents tenants agents heartbeat_timeout now).2 ↔
      ∃ a ∈ agents, needsSuspend (now - heartbeat_timeout) a = true ∧ b = suspendAgent a) ∧
    (∀ a ∈ agents,
      (sweep_inactive_agents tenants agents heartbeat_timeout now).1.find?
          (fun u => decide (u.id = a.id))
        = some (if needsSuspend (now - heartbeat_timeout) a then suspendAgent a else a)) := by
  rw [sweep_closed_form tenants agents heartbeat_timeout now hA hT]
  constructor
  · intro b
    simp only [List.mem_flatMap, List.mem_map, List.mem_filter]
    constructor
    · rintro ⟨t, ht, a, ⟨hal, hcond⟩, rfl⟩
      exact ⟨a, ((mem_list_agents agents t.id a).mp hal).1, hcond, rfl⟩
    · rintro ⟨a, ha, hcond, rfl⟩
      obtain ⟨t, ht, htid⟩ := hcover a ha
      exact ⟨t, (mem_list_tenants tenants t).mpr ht, a,
        ⟨(mem_list_agents agents t.id a).mpr ⟨ha, htid.symm⟩, hcond⟩, rfl⟩
  · intro a ha
    rw [show ((agents.map (sweptAgent (now - heartbeat_timeout)
        ((list_tenants tenants).map (fun t => t.id))),
        (list_tenants tenants).flatMap (fun t =>
          ((list_agents agents t.id).filter (needsSuspend (now - heartbeat_timeout))).map
            suspendAgent)).1 : List Agent)
      = agents.map (sweptAgent (now - heartbeat_timeout)
          ((list_tenants tenants).map (fun t => t.id))) from rfl]
    rw [find?_map_by_id _ (sweptAgent_id _ _) agents hA a ha]
    congr 1
    unfold sweptAgent
    obtain ⟨t, ht, htid⟩ := hcover a ha
    have hmem : a.tenant_id ∈ (list_tenants tenants).map (fun t => t.id) := by
      rw [← htid]
      exact List.mem_map_of_mem _ ((mem_list_tenants tenants t).mpr ht)
    by_cases hc : needsSuspend (now - heartbeat_timeout) a = true
    · rw [if_pos ⟨hmem, hc⟩, if_pos hc]
    · rw [if_neg (fun h => hc h.2), if_neg hc]

/-- C8 witness: two tenants, four agents (one stale Active, one stale but
already Suspended, one never seen, one fresh) with heartbeat_timeout 300 at
now = 1000. -/
theorem sweep_inactive_agents_stale_set_witness :
    (c8agents.map (fun a => a.id)).Nodup ∧
    ((∀ b, b ∈ (sweep_inactive_agents c8tenants c8agents 300 1000).2 ↔
        ∃ a ∈ c8agents, needsSuspend (1000 - 300) a = true ∧ b = suspendAgent a) ∧
     (∀ a ∈ c8agents,
        (sweep_inactive_agents c8tenants c8agents 300 1000).1.find?
            (fun u => decide (u.id = a.id))
          = some (if needsSuspend (1000 - 300) a then suspendAgent a else a))) :=
  ⟨by decide,
   sweep_inactive_agents_stale_set c8tenants c8agents 300 1000 (by decide) (by decide)
     (by decide)⟩

end Prov
